import Mathlib

/-!
Verification development for the vgm_source_database repository.

Part 1 embeds the fixture importer (`vgm_source_database/import_utils.py`,
`import_fixture_file`) together with the data model it operates on
(`sources/models.py`, `games/models.py`, `songs/models.py`).
Part 2 embeds the fixture builder (`convert_csv_to_yaml.py`, class
`CSVConverter`).

Machine integers of the source are plain Python ints; they are embedded as
`Nat` (all primary keys and years in the program are non-negative and no
width-limited arithmetic occurs).  File I/O, YAML parsing and console
printing are external boundaries; the embedding starts from the parsed
values the source computes with.
-/

namespace VGM

/-! ### String helpers (Python semantics)

`strip` is `String.trim`, `x in y` is substring containment, `s[:n]` is
`String.take`.  The inputs exercised are ASCII apart from the star glyph,
so `toUpper`/`toLower` agree with Python `upper`/`lower` on them. -/

/-- Does `hay` start with `needle` (on character lists)? -/
def leadMatch : List Char → List Char → Bool
  | [], _ => true
  | _ :: _, [] => false
  | a :: as, b :: bs => a == b && leadMatch as bs

/-- Is `needle` a contiguous sub-sequence of `hay`?  Python `needle in hay`. -/
def subSearch (needle : List Char) : List Char → Bool
  | [] => leadMatch needle []
  | b :: bs => leadMatch needle (b :: bs) || subSearch needle bs

/-- Python `needle in hay` on strings. -/
def strHasSub (hay needle : String) : Bool :=
  subSearch needle.data hay.data

/-- The whitespace characters stripped by Python `str.strip()` (ASCII). -/
def pyIsSpace (c : Char) : Bool :=
  c == ' ' || c == '\t' || c == '\n' || c == '\r' || c == '\x0b' || c == '\x0c'

/-- Python `str.strip()`. -/
def pyStrip (s : String) : String :=
  String.mk (((s.data.dropWhile pyIsSpace).reverse.dropWhile pyIsSpace).reverse)

/-- ASCII uppercase of one character. -/
def chUpper (c : Char) : Char :=
  if 97 ≤ c.toNat && c.toNat ≤ 122 then Char.ofNat (c.toNat - 32) else c

/-- ASCII lowercase of one character. -/
def chLower (c : Char) : Char :=
  if 65 ≤ c.toNat && c.toNat ≤ 90 then Char.ofNat (c.toNat + 32) else c

/-- Python `str.upper()` on the ASCII inputs exercised. -/
def pyUpper (s : String) : String := String.mk (s.data.map chUpper)

/-- Python `str.lower()` on the ASCII inputs exercised. -/
def pyLower (s : String) : String := String.mk (s.data.map chLower)

/-- Python `str.startswith(p)`. -/
def pyStartsWith (s p : String) : Bool := leadMatch p.data s.data

/-- Code-point order on character lists (Python string comparison). -/
def chListLe : List Char → List Char → Bool
  | [], _ => true
  | _ :: _, [] => false
  | a :: as, b :: bs => if a == b then chListLe as bs else decide (a < b)

/-- Python `a <= b` on strings. -/
def pyStrLe (a b : String) : Bool := chListLe a.data b.data

/-- `len(s.split("."))`: one more than the number of dots. -/
def dotParts : List Char → Nat
  | [] => 1
  | c :: rest => (if c == '.' then 1 else 0) + dotParts rest

/-! ### The importer's value universe

A fixture record field holds a YAML scalar, null, an integer reference or a
list of integer references (spec section 6; all fixture files written by the
builder use exactly these shapes). -/

/-- A parsed YAML field value as consumed by `import_fixture_file`. -/
inductive FieldValue
  | vNull
  | vNat (n : Nat)
  | vStr (s : String)
  | vList (l : List Nat)
deriving DecidableEq, Repr

/-- Python truthiness of a field value (`if value:` in the source). -/
def isTruthy : FieldValue → Bool
  | .vNull => false
  | .vNat n => n != 0
  | .vStr s => s != ""
  | .vList l => !l.isEmpty

/-- One fixture record: `model` path string, integer `pk`, field mapping.
Field names are unique in the source (Python dict); theorems that need this
carry it as a hypothesis. -/
structure FixtureRecord where
  model : String
  pk : Nat
  fields : List (String × FieldValue)
deriving DecidableEq, Repr

/-! ### The stored data model (from the Django models) -/

/-- The repository's installed models, as resolved by `apps.get_model`. -/
inductive ModelName
  | gametag | game | person | song | company | product | bank | soundsource
deriving DecidableEq, Repr

/-- `app_label.ModelName` resolution (`model_path.split(".")` followed by
`apps.get_model`); any unresolvable path raises and is handled by the
caller's generic handler. -/
def resolveModel : String → Option ModelName
  | "games.GameTag" => some .gametag
  | "games.Game" => some .game
  | "songs.Person" => some .person
  | "songs.Song" => some .song
  | "sources.Company" => some .company
  | "sources.Product" => some .product
  | "sources.Bank" => some .bank
  | "sources.SoundSource" => some .soundsource
  | _ => none

/-- Target of a many-to-many field: a repository model or the external
auth user model (`SoundSource.discoverers`). -/
inductive RelTarget
  | rm (m : ModelName)
  | rUser
deriving DecidableEq, Repr

/-- Classification of a model field, from the model declarations:
many-to-many, foreign key (with target model), or plain column. -/
inductive FieldKind
  | plain
  | fk (t : ModelName)
  | m2m (t : RelTarget)
deriving DecidableEq, Repr

/-- Field classification mirroring `model_class._meta.get_field` checks in
`import_fixture_file` (many_to_many, related_model) over the concrete
models of the repository. -/
def fieldKind : ModelName → String → FieldKind
  | .game, "tags" => .m2m (.rm .gametag)
  | .game, "album_artists" => .m2m (.rm .person)
  | .person, "products" => .m2m (.rm .product)
  | .song, "composers" => .m2m (.rm .person)
  | .song, "arrangers" => .m2m (.rm .person)
  | .song, "game" => .fk .game
  | .soundsource, "discoverers" => .m2m .rUser
  | .soundsource, "games" => .m2m (.rm .game)
  | .soundsource, "songs" => .m2m (.rm .song)
  | .soundsource, "bank" => .fk .bank
  | .soundsource, "product" => .fk .product
  | .product, "company" => .fk .company
  | .bank, "product" => .fk .product
  | _, _ => .plain

/-- Stored GameTag row (`games/models.py`): unique name, unique slug. -/
structure StGameTag where
  pk : Nat
  name : String
  slug : String
  description : String
deriving DecidableEq, Repr

/-- Stored Game row (`games/models.py`). -/
structure StGame where
  pk : Nat
  title : String
  release_date : Option String
  release_year : Option Nat
  notes : String
deriving DecidableEq, Repr

/-- Stored Person row (`songs/models.py`). -/
structure StPerson where
  pk : Nat
  name : String
  notes : String
deriving DecidableEq, Repr

/-- Stored Song row (`songs/models.py`): required game FK,
unique (title, game). -/
structure StSong where
  pk : Nat
  title : String
  game : Nat
  track_number : Option Nat
  notes : String
deriving DecidableEq, Repr

/-- Stored Company row (`sources/models.py`): unique name. -/
structure StCompany where
  pk : Nat
  name : String
  notes : String
deriving DecidableEq, Repr

/-- Stored Product row (`sources/models.py`): required company FK,
unique (name, company). -/
structure StProduct where
  pk : Nat
  name : String
  company : Nat
  notes : String
deriving DecidableEq, Repr

/-- Stored Bank row (`sources/models.py`): required product FK,
unique (name, product). -/
structure StBank where
  pk : Nat
  name : String
  product : Nat
  notes : String
deriving DecidableEq, Repr

/-- Stored SoundSource row (`sources/models.py`): nullable bank and product
FKs; `clean` requires at least one of them. -/
structure StSoundSource where
  pk : Nat
  name : String
  bank : Option Nat
  product : Option Nat
  notes : String
deriving DecidableEq, Repr

/-- The relational store.  Many-to-many memberships live in through tables,
keyed by (owning model, owning pk, field name), exactly as in the relational
schema; `users` lists the pks of the external auth user table, whose rows
are never created by the importer. -/
structure DB where
  gametags : List StGameTag
  games : List StGame
  people : List StPerson
  songs : List StSong
  companies : List StCompany
  products : List StProduct
  banks : List StBank
  soundsources : List StSoundSource
  users : List Nat
  rels : List ((ModelName × Nat × String) × List Nat)
deriving DecidableEq, Repr

/-- The empty database. -/
def emptyDB : DB := ⟨[], [], [], [], [], [], [], [], [], []⟩

/-- Primary keys stored for a model. -/
def pksOf (db : DB) : ModelName → List Nat
  | .gametag => db.gametags.map (·.pk)
  | .game => db.games.map (·.pk)
  | .person => db.people.map (·.pk)
  | .song => db.songs.map (·.pk)
  | .company => db.companies.map (·.pk)
  | .product => db.products.map (·.pk)
  | .bank => db.banks.map (·.pk)
  | .soundsource => db.soundsources.map (·.pk)

/-- `model.objects.filter(pk=n).exists()`. -/
def pkExists (db : DB) (m : ModelName) (n : Nat) : Bool :=
  (pksOf db m).contains n

/-- Primary keys of the target table of a many-to-many field. -/
def relatedPks (db : DB) : RelTarget → List Nat
  | .rm m => pksOf db m
  | .rUser => db.users

/-- Membership in the target table of a many-to-many field. -/
def relatedHas (db : DB) (t : RelTarget) (n : Nat) : Bool :=
  (relatedPks db t).contains n

/-- Replace or append an association under a decidable key. -/
def setAssoc {κ α : Type} [DecidableEq κ] (l : List (κ × α)) (k : κ) (a : α) :
    List (κ × α) :=
  if l.any (fun p => decide (p.1 = k)) then
    l.map (fun p => if p.1 = k then (k, a) else p)
  else l ++ [(k, a)]

/-- First association under a decidable key. -/
def getAssoc {κ α : Type} [DecidableEq κ] (l : List (κ × α)) (k : κ) :
    Option α :=
  (l.find? (fun p => decide (p.1 = k))).map (·.2)

/-- The stored many-to-many membership of field `f` of entity (`m`, `pk`)
(empty when no relation rows exist, as for a nonexistent entity). -/
def m2mLookup (db : DB) (m : ModelName) (pk : Nat) (f : String) : List Nat :=
  (getAssoc db.rels (m, pk, f)).getD []

/-! ### Field resolution (lines 62-104 of import_utils.py) -/

/-- A regular (non many-to-many) field after foreign-key resolution:
plain scalar, resolved reference, allowed null reference, or the raw value
kept when the referenced row does not exist. -/
inductive RField
  | scalar (v : FieldValue)
  | refSome (n : Nat)
  | refNone
  | refRaw (v : FieldValue)
deriving DecidableEq, Repr

/-- Separation of the field mapping into many-to-many fields and regular
fields with foreign keys resolved against the current store (the loop at
lines 66-104; resolution failure keeps the raw value). -/
def classifyFields (db : DB) (m : ModelName) :
    List (String × FieldValue) →
    List (String × RelTarget × FieldValue) × List (String × RField)
  | [] => ([], [])
  | (f, v) :: rest =>
    let c := classifyFields db m rest
    match fieldKind m f with
    | .m2m t => ((f, t, v) :: c.1, c.2)
    | .fk t =>
      let r : RField :=
        match v with
        | .vNull => .refNone
        | .vNat n => if pkExists db t n then .refSome n else .refRaw (.vNat n)
        | v => .refRaw v
      (c.1, (f, r) :: c.2)
    | .plain => (c.1, (f, .scalar v) :: c.2)

/-! ### Database errors raised by create/update -/

/-- The error kinds a record's create/update can raise: the three
IntegrityError shapes the importer classifies, plus ValueError (raw value
assigned to a foreign key), ValidationError (`SoundSource.clean`) and
TypeError (unknown keyword/non-iterable m2m value). -/
inductive DbError
  | uniq (what : String)
  | fkv (what : String)
  | notNull (f : String)
  | valueErr (f : String)
  | validation (msg : String)
  | typeErr (f : String)
deriving DecidableEq, Repr

/-- Is the error a database IntegrityError (caught by the dedicated handler
in the skip branch)? -/
def isIntegrity : DbError → Bool
  | .uniq _ => true
  | .fkv _ => true
  | .notNull _ => true
  | _ => false

/-- `str(e)` for the embedded errors (database-backend style texts). -/
def errText : DbError → String
  | .uniq w => "UNIQUE constraint failed: " ++ w
  | .fkv w => "FOREIGN KEY constraint failed: " ++ w
  | .notNull f => "NOT NULL constraint failed: " ++ f
  | .valueErr f => "Cannot assign raw value: field " ++ f ++ " expects a model instance"
  | .validation m => m
  | .typeErr f => "invalid value for field " ++ f

/-- `type(e).__name__` for the embedded errors. -/
def errTypeName : DbError → String
  | .uniq _ => "IntegrityError"
  | .fkv _ => "IntegrityError"
  | .notNull _ => "IntegrityError"
  | .valueErr _ => "ValueError"
  | .validation _ => "ValidationError"
  | .typeErr _ => "TypeError"

/-- The IntegrityError message format of lines 151-161. -/
def integrityMsg (idx : Nat) (mp : String) (pk : Nat) (e : DbError) : String :=
  let es := errText e
  let head := "Item " ++ toString idx ++ " (" ++ mp ++ " pk=" ++ toString pk ++ "): "
  if strHasSub (pyLower es) "unique constraint" then
    head ++ "Unique constraint violation - " ++ es
  else if strHasSub (pyLower es) "foreign key" then
    head ++ "Foreign key constraint violation - " ++ es
  else if strHasSub (pyLower es) "not-null constraint" then
    head ++ "Not-null constraint violation - " ++ es
  else head ++ es

/-- The generic handler's message format of line 171. -/
def genericMsg (idx : Nat) (mp : String) (pk : Nat) (ty es : String) : String :=
  "Item " ++ toString idx ++ " (" ++ mp ++ " pk=" ++ toString pk ++ "): [" ++
    ty ++ "] " ++ es

/-! ### Entity creation and update -/

/-- Settable non many-to-many field names per model (the `auto_now` fields
accept and ignore provided values). -/
def knownFields : ModelName → List String
  | .gametag => ["name", "slug", "description", "created_at", "updated_at"]
  | .game => ["title", "release_date", "release_year", "notes", "created_at", "updated_at"]
  | .person => ["name", "notes", "created_at", "updated_at"]
  | .song => ["title", "game", "track_number", "notes", "created_at", "updated_at"]
  | .company => ["name", "notes", "created_at", "updated_at"]
  | .product => ["name", "company", "notes", "created_at", "updated_at"]
  | .bank => ["name", "product", "notes", "created_at", "updated_at"]
  | .soundsource => ["name", "bank", "product", "notes", "created_at", "updated_at"]

/-- Look up a resolved regular field. -/
def getReg (regs : List (String × RField)) (f : String) : Option RField :=
  (regs.find? (fun p => p.1 == f)).map (·.2)

/-- Value for a text column (CharField/TextField, not null, default ""). -/
def getStr (regs : List (String × RField)) (f : String) : Except DbError String :=
  match getReg regs f with
  | none => .ok ""
  | some (.scalar (.vStr s)) => .ok s
  | some (.scalar .vNull) => .error (.notNull f)
  | some (.scalar (.vNat n)) => .ok (toString n)
  | some _ => .error (.valueErr f)

/-- Value for a nullable integer column. -/
def getOptNat (regs : List (String × RField)) (f : String) :
    Except DbError (Option Nat) :=
  match getReg regs f with
  | none => .ok none
  | some (.scalar .vNull) => .ok none
  | some (.scalar (.vNat n)) => .ok (some n)
  | some _ => .error (.valueErr f)

/-- Value for a nullable date column (date-string validity is an external
concern of the database driver and is not modelled; the builder always
writes null here). -/
def getOptDate (regs : List (String × RField)) (f : String) :
    Except DbError (Option String) :=
  match getReg regs f with
  | none => .ok none
  | some (.scalar .vNull) => .ok none
  | some (.scalar (.vStr s)) => .ok (some s)
  | some _ => .error (.valueErr f)

/-- Value for a required foreign key: a resolved pk; null or absent values
violate NOT NULL at insert, an unresolved raw value raises ValueError at
assignment. -/
def getReqFk (regs : List (String × RField)) (f : String) : Except DbError Nat :=
  match getReg regs f with
  | none => .error (.notNull f)
  | some (.refSome n) => .ok n
  | some .refNone => .error (.notNull f)
  | some (.refRaw _) => .error (.valueErr f)
  | some (.scalar _) => .error (.valueErr f)

/-- Value for a nullable foreign key. -/
def getOptFk (regs : List (String × RField)) (f : String) :
    Except DbError (Option Nat) :=
  match getReg regs f with
  | none => .ok none
  | some (.refSome n) => .ok (some n)
  | some .refNone => .ok none
  | some (.refRaw _) => .error (.valueErr f)
  | some (.scalar _) => .error (.valueErr f)

/-- ASCII restriction of `django.utils.text.slugify`, used by
`GameTag.save` when the provided slug is empty (modelled from the external
library; fixture records always provide a slug). -/
def djangoSlugify (text : String) : String :=
  let kept := (pyLower text).data.filter
    (fun c => c.isAlphanum || c == '_' || c == '-' || c == ' ')
  let rec collapse : Bool → List Char → List Char
    | _, [] => []
    | prev, c :: rest =>
      if c == '-' || c == ' ' then
        if prev then collapse true rest else '-' :: collapse true rest
      else c :: collapse false rest
  let collapsed := collapse false kept
  let stripped := ((collapsed.dropWhile (fun c => c == '-' || c == '_')).reverse.dropWhile
    (fun c => c == '-' || c == '_')).reverse
  String.mk stripped

/-- `model_class.objects.create(pk=pk, **regular_fields)`: build the row,
run model validation where the model defines it (`SoundSource.save` calls
`full_clean`), and enforce the table constraints.  Returns the extended
store or the raised error. -/
def createEntity (db : DB) (m : ModelName) (pk : Nat)
    (regs : List (String × RField)) : Except DbError DB :=
  if regs.any (fun p => !((knownFields m).contains p.1)) then
    .error (.typeErr "unexpected keyword argument")
  else if (pksOf db m).contains pk then
    .error (.uniq "pk")
  else
    match m with
    | .gametag =>
      match getStr regs "name", getStr regs "slug", getStr regs "description" with
      | .error e, _, _ => .error e
      | _, .error e, _ => .error e
      | _, _, .error e => .error e
      | .ok name, .ok slug0, .ok description =>
        let slug := if slug0 == "" then djangoSlugify name else slug0
        if db.gametags.any (fun e => e.name == name) then
          .error (.uniq "games_gametag.name")
        else if db.gametags.any (fun e => e.slug == slug) then
          .error (.uniq "games_gametag.slug")
        else .ok { db with gametags := db.gametags ++ [⟨pk, name, slug, description⟩] }
    | .game =>
      match getStr regs "title", getOptDate regs "release_date",
          getOptNat regs "release_year", getStr regs "notes" with
      | .error e, _, _, _ => .error e
      | _, .error e, _, _ => .error e
      | _, _, .error e, _ => .error e
      | _, _, _, .error e => .error e
      | .ok title, .ok rd, .ok ry, .ok notes =>
        .ok { db with games := db.games ++ [⟨pk, title, rd, ry, notes⟩] }
    | .person =>
      match getStr regs "name", getStr regs "notes" with
      | .error e, _ => .error e
      | _, .error e => .error e
      | .ok name, .ok notes =>
        .ok { db with people := db.people ++ [⟨pk, name, notes⟩] }
    | .song =>
      match getStr regs "title", getReqFk regs "game",
          getOptNat regs "track_number", getStr regs "notes" with
      | .error e, _, _, _ => .error e
      | _, .error e, _, _ => .error e
      | _, _, .error e, _ => .error e
      | _, _, _, .error e => .error e
      | .ok title, .ok game, .ok track, .ok notes =>
        if db.songs.any (fun e => e.title == title && e.game == game) then
          .error (.uniq "songs_song.title, songs_song.game_id")
        else .ok { db with songs := db.songs ++ [⟨pk, title, game, track, notes⟩] }
    | .company =>
      match getStr regs "name", getStr regs "notes" with
      | .error e, _ => .error e
      | _, .error e => .error e
      | .ok name, .ok notes =>
        if db.companies.any (fun e => e.name == name) then
          .error (.uniq "sources_company.name")
        else .ok { db with companies := db.companies ++ [⟨pk, name, notes⟩] }
    | .product =>
      match getStr regs "name", getReqFk regs "company", getStr regs "notes" with
      | .error e, _, _ => .error e
      | _, .error e, _ => .error e
      | _, _, .error e => .error e
      | .ok name, .ok company, .ok notes =>
        if db.products.any (fun e => e.name == name && e.company == company) then
          .error (.uniq "sources_product.name, sources_product.company_id")
        else .ok { db with products := db.products ++ [⟨pk, name, company, notes⟩] }
    | .bank =>
      match getStr regs "name", getReqFk regs "product", getStr regs "notes" with
      | .error e, _, _ => .error e
      | _, .error e, _ => .error e
      | _, _, .error e => .error e
      | .ok name, .ok product, .ok notes =>
        if db.banks.any (fun e => e.name == name && e.product == product) then
          .error (.uniq "sources_bank.name, sources_bank.product_id")
        else .ok { db with banks := db.banks ++ [⟨pk, name, product, notes⟩] }
    | .soundsource =>
      match getStr regs "name", getOptFk regs "bank", getOptFk regs "product",
          getStr regs "notes" with
      | .error e, _, _, _ => .error e
      | _, .error e, _, _ => .error e
      | _, _, .error e, _ => .error e
      | _, _, _, .error e => .error e
      | .ok name, .ok bank, .ok product, .ok notes =>
        if bank == none && product == none then
          .error (.validation "Sound source must have either a bank OR a product.")
        else .ok { db with soundsources := db.soundsources ++ [⟨pk, name, bank, product, notes⟩] }

/-- A scalar assignment during `update_or_create` (text column). -/
def updStr (f : String) (v : RField) (_old : String) : Except DbError String :=
  match v with
  | .scalar (.vStr s) => .ok s
  | .scalar .vNull => .error (.notNull f)
  | .scalar (.vNat n) => .ok (toString n)
  | _ => .error (.valueErr f)

/-- A nullable-integer assignment during `update_or_create`. -/
def updOptNat (f : String) (v : RField) (_old : Option Nat) :
    Except DbError (Option Nat) :=
  match v with
  | .scalar .vNull => .ok none
  | .scalar (.vNat n) => .ok (some n)
  | _ => .error (.valueErr f)

/-- A nullable-date assignment during `update_or_create`. -/
def updOptDate (f : String) (v : RField) (_old : Option String) :
    Except DbError (Option String) :=
  match v with
  | .scalar .vNull => .ok none
  | .scalar (.vStr s) => .ok (some s)
  | _ => .error (.valueErr f)

/-- A required foreign-key assignment during `update_or_create`. -/
def updReqFk (f : String) (v : RField) (_old : Nat) : Except DbError Nat :=
  match v with
  | .refSome n => .ok n
  | .refNone => .error (.notNull f)
  | _ => .error (.valueErr f)

/-- A nullable foreign-key assignment during `update_or_create`. -/
def updOptFk (f : String) (v : RField) (_old : Option Nat) :
    Except DbError (Option Nat) :=
  match v with
  | .refSome n => .ok (some n)
  | .refNone => .ok none
  | _ => .error (.valueErr f)

/-- Field-by-field `setattr` on a GameTag (unknown names are set silently
as plain attributes and ignored by save, so they leave the row unchanged). -/
def updGameTagField (e : StGameTag) (f : String) (v : RField) :
    Except DbError StGameTag :=
  if f == "name" then do pure { e with name := ← updStr f v e.name }
  else if f == "slug" then do pure { e with slug := ← updStr f v e.slug }
  else if f == "description" then do
    pure { e with description := ← updStr f v e.description }
  else pure e

/-- Field-by-field `setattr` on a Game. -/
def updGameField (e : StGame) (f : String) (v : RField) :
    Except DbError StGame :=
  if f == "title" then do pure { e with title := ← updStr f v e.title }
  else if f == "release_date" then do
    pure { e with release_date := ← updOptDate f v e.release_date }
  else if f == "release_year" then do
    pure { e with release_year := ← updOptNat f v e.release_year }
  else if f == "notes" then do pure { e with notes := ← updStr f v e.notes }
  else pure e

/-- Field-by-field `setattr` on a Person. -/
def updPersonField (e : StPerson) (f : String) (v : RField) :
    Except DbError StPerson :=
  if f == "name" then do pure { e with name := ← updStr f v e.name }
  else if f == "notes" then do pure { e with notes := ← updStr f v e.notes }
  else pure e

/-- Field-by-field `setattr` on a Song. -/
def updSongField (e : StSong) (f : String) (v : RField) :
    Except DbError StSong :=
  if f == "title" then do pure { e with title := ← updStr f v e.title }
  else if f == "game" then do pure { e with game := ← updReqFk f v e.game }
  else if f == "track_number" then do
    pure { e with track_number := ← updOptNat f v e.track_number }
  else if f == "notes" then do pure { e with notes := ← updStr f v e.notes }
  else pure e

/-- Field-by-field `setattr` on a Company. -/
def updCompanyField (e : StCompany) (f : String) (v : RField) :
    Except DbError StCompany :=
  if f == "name" then do pure { e with name := ← updStr f v e.name }
  else if f == "notes" then do pure { e with notes := ← updStr f v e.notes }
  else pure e

/-- Field-by-field `setattr` on a Product. -/
def updProductField (e : StProduct) (f : String) (v : RField) :
    Except DbError StProduct :=
  if f == "name" then do pure { e with name := ← updStr f v e.name }
  else if f == "company" then do
    pure { e with company := ← updReqFk f v e.company }
  else if f == "notes" then do pure { e with notes := ← updStr f v e.notes }
  else pure e

/-- Field-by-field `setattr` on a Bank. -/
def updBankField (e : StBank) (f : String) (v : RField) :
    Except DbError StBank :=
  if f == "name" then do pure { e with name := ← updStr f v e.name }
  else if f == "product" then do
    pure { e with product := ← updReqFk f v e.product }
  else if f == "notes" then do pure { e with notes := ← updStr f v e.notes }
  else pure e

/-- Field-by-field `setattr` on a SoundSource. -/
def updSoundSourceField (e : StSoundSource) (f : String) (v : RField) :
    Except DbError StSoundSource :=
  if f == "name" then do pure { e with name := ← updStr f v e.name }
  else if f == "bank" then do pure { e with bank := ← updOptFk f v e.bank }
  else if f == "product" then do
    pure { e with product := ← updOptFk f v e.product }
  else if f == "notes" then do pure { e with notes := ← updStr f v e.notes }
  else pure e

/-- The update arm of `update_or_create(pk=pk, defaults=regular_fields)`:
set each given field on the existing row, re-validate, enforce uniqueness
against the other rows, and save in place.  A raised error leaves the store
unchanged. -/
def updateEntity (db : DB) (m : ModelName) (pk : Nat)
    (regs : List (String × RField)) : Except DbError DB :=
  match m with
  | .gametag =>
    match db.gametags.find? (fun e => e.pk == pk) with
    | none => .error (.typeErr "object vanished")
    | some e =>
      match regs.foldlM (fun a (p : String × RField) => updGameTagField a p.1 p.2) e with
      | .error er => .error er
      | .ok e0 =>
        let e' := if e0.slug == "" then { e0 with slug := djangoSlugify e0.name } else e0
        if db.gametags.any (fun o => o.pk != pk && o.name == e'.name) then
          .error (.uniq "games_gametag.name")
        else if db.gametags.any (fun o => o.pk != pk && o.slug == e'.slug) then
          .error (.uniq "games_gametag.slug")
        else .ok { db with gametags := db.gametags.map (fun o => if o.pk == pk then e' else o) }
  | .game =>
    match db.games.find? (fun e => e.pk == pk) with
    | none => .error (.typeErr "object vanished")
    | some e =>
      match regs.foldlM (fun a (p : String × RField) => updGameField a p.1 p.2) e with
      | .error er => .error er
      | .ok e' =>
        .ok { db with games := db.games.map (fun o => if o.pk == pk then e' else o) }
  | .person =>
    match db.people.find? (fun e => e.pk == pk) with
    | none => .error (.typeErr "object vanished")
    | some e =>
      match regs.foldlM (fun a (p : String × RField) => updPersonField a p.1 p.2) e with
      | .error er => .error er
      | .ok e' =>
        .ok { db with people := db.people.map (fun o => if o.pk == pk then e' else o) }
  | .song =>
    match db.songs.find? (fun e => e.pk == pk) with
    | none => .error (.typeErr "object vanished")
    | some e =>
      match regs.foldlM (fun a (p : String × RField) => updSongField a p.1 p.2) e with
      | .error er => .error er
      | .ok e' =>
        if db.songs.any (fun o => o.pk != pk && o.title == e'.title && o.game == e'.game) then
          .error (.uniq "songs_song.title, songs_song.game_id")
        else .ok { db with songs := db.songs.map (fun o => if o.pk == pk then e' else o) }
  | .company =>
    match db.companies.find? (fun e => e.pk == pk) with
    | none => .error (.typeErr "object vanished")
    | some e =>
      match regs.foldlM (fun a (p : String × RField) => updCompanyField a p.1 p.2) e with
      | .error er => .error er
      | .ok e' =>
        if db.companies.any (fun o => o.pk != pk && o.name == e'.name) then
          .error (.uniq "sources_company.name")
        else .ok { db with companies := db.companies.map (fun o => if o.pk == pk then e' else o) }
  | .product =>
    match db.products.find? (fun e => e.pk == pk) with
    | none => .error (.typeErr "object vanished")
    | some e =>
      match regs.foldlM (fun a (p : String × RField) => updProductField a p.1 p.2) e with
      | .error er => .error er
      | .ok e' =>
        if db.products.any (fun o => o.pk != pk && o.name == e'.name && o.company == e'.company) then
          .error (.uniq "sources_product.name, sources_product.company_id")
        else .ok { db with products := db.products.map (fun o => if o.pk == pk then e' else o) }
  | .bank =>
    match db.banks.find? (fun e => e.pk == pk) with
    | none => .error (.typeErr "object vanished")
    | some e =>
      match regs.foldlM (fun a (p : String × RField) => updBankField a p.1 p.2) e with
      | .error er => .error er
      | .ok e' =>
        if db.banks.any (fun o => o.pk != pk && o.name == e'.name && o.product == e'.product) then
          .error (.uniq "sources_bank.name, sources_bank.product_id")
        else .ok { db with banks := db.banks.map (fun o => if o.pk == pk then e' else o) }
  | .soundsource =>
    match db.soundsources.find? (fun e => e.pk == pk) with
    | none => .error (.typeErr "object vanished")
    | some e =>
      match regs.foldlM (fun a (p : String × RField) => updSoundSourceField a p.1 p.2) e with
      | .error er => .error er
      | .ok e' =>
        if e'.bank == none && e'.product == none then
          .error (.validation "Sound source must have either a bank OR a product.")
        else .ok { db with soundsources := db.soundsources.map (fun o => if o.pk == pk then e' else o) }

/-! ### Many-to-many assignment (lines 118-125 and 140-147) -/

/-- The rows returned by `related_model.objects.filter(pk__in=vs)`: the
referenced keys that exist in the target table, in table order. -/
def resolvedSet (db : DB) (t : RelTarget) (vs : List Nat) : List Nat :=
  (relatedPks db t).filter (fun n => vs.contains n)

/-- Overwrite one through-table membership. -/
def addRel (db : DB) (m : ModelName) (pk : Nat) (f : String) (vs : List Nat) : DB :=
  { db with rels := setAssoc db.rels (m, pk, f) vs }

/-- `getattr(obj, field_name).set(related_model.objects.filter(pk__in=value))`:
membership becomes the resolved set.  `filter(pk__in=v)` with a non-list
value raises when the query is evaluated (TypeError / ValueError), reported
to the caller. -/
def setM2mField (db : DB) (m : ModelName) (pk : Nat) (f : String)
    (t : RelTarget) (v : FieldValue) : Except DbError DB :=
  match v with
  | .vList vs => .ok (addRel db m pk f (resolvedSet db t vs))
  | _ => .error (.typeErr f)

/-- The many-to-many loop: apply each non-falsy value in order; stop at the
first failure, returning the store reached so far together with the error
(the overwrite branch has no transaction, so partial effects persist
there). -/
def applyM2m (m : ModelName) (pk : Nat) :
    DB → List (String × RelTarget × FieldValue) → DB × Option DbError
  | db, [] => (db, none)
  | db, (f, t, v) :: rest =>
    if isTruthy v then
      match setM2mField db m pk f t v with
      | .ok db' => applyM2m m pk db' rest
      | .error e => (db, some e)
    else applyM2m m pk db rest

/-! ### Per-record processing (lines 53-174) -/

/-- The outcome of one record: which counters it increments and which error
message (if any) it appends.  `createdThenErr`/`updatedThenErr` are the
paths where the relationship assignment fails after `created`/`updated`
was already counted, so the record is additionally counted as skipped by
the exception handler. -/
inductive Outcome
  | created
  | updated
  | skippedDup
  | skippedErr (msg : String)
  | createdThenErr (msg : String)
  | updatedThenErr (msg : String)
deriving DecidableEq, Repr

/-- Contribution of an outcome to the `created` counter. -/
def dCreated : Outcome → Nat
  | .created => 1
  | .createdThenErr _ => 1
  | _ => 0

/-- Contribution of an outcome to the `updated` counter. -/
def dUpdated : Outcome → Nat
  | .updated => 1
  | .updatedThenErr _ => 1
  | _ => 0

/-- Contribution of an outcome to the `skipped` counter. -/
def dSkipped : Outcome → Nat
  | .created => 0
  | .updated => 0
  | _ => 1

/-- Error messages contributed by an outcome. -/
def errsOf : Outcome → List String
  | .skippedErr m => [m]
  | .createdThenErr m => [m]
  | .updatedThenErr m => [m]
  | _ => []

/-- Message for an unrecognizable `model` path: a one- or three-part path
fails tuple unpacking (ValueError), a two-part path with no such model
raises LookupError; both land in the generic handler. -/
def unknownModelMsg (idx : Nat) (mp : String) (pk : Nat) : String :=
  if dotParts mp.data == 2 then
    genericMsg idx mp pk "LookupError" ("No installed app or model matches " ++ mp)
  else
    genericMsg idx mp pk "ValueError" "not enough values to unpack model path"

/-- Message formatting in the skip branch: IntegrityErrors go through the
dedicated handler of lines 148-164, everything else through the generic
handler of lines 166-174. -/
def skipErrMsg (idx : Nat) (mp : String) (pk : Nat) (e : DbError) : String :=
  if isIntegrity e then integrityMsg idx mp pk e
  else genericMsg idx mp pk (errTypeName e) (errText e)

/-- Processing of a single fixture record (loop body, lines 53-174).
`dh` is the `duplicate_handling` string: `"overwrite"` selects the upsert
branch, anything else the skip branch, as in the source.  Returns the
outcome and the store after the record.  In the skip branch the creation is
wrapped in `transaction.atomic`, so any failure there returns the incoming
store; the overwrite branch has no transaction. -/
def processRecord (dh : String) (db : DB) (idx : Nat) (r : FixtureRecord) :
    Outcome × DB :=
  match resolveModel r.model with
  | none => (.skippedErr (unknownModelMsg idx r.model r.pk), db)
  | some m =>
    let c := classifyFields db m r.fields
    if dh == "overwrite" then
      if pkExists db m r.pk then
        match updateEntity db m r.pk c.2 with
        | .error e => (.skippedErr (genericMsg idx r.model r.pk (errTypeName e) (errText e)), db)
        | .ok db1 =>
          match applyM2m m r.pk db1 c.1 with
          | (db2, none) => (.updated, db2)
          | (db2, some e) =>
            (.updatedThenErr (genericMsg idx r.model r.pk (errTypeName e) (errText e)), db2)
      else
        match createEntity db m r.pk c.2 with
        | .error e => (.skippedErr (genericMsg idx r.model r.pk (errTypeName e) (errText e)), db)
        | .ok db1 =>
          match applyM2m m r.pk db1 c.1 with
          | (db2, none) => (.created, db2)
          | (db2, some e) =>
            (.createdThenErr (genericMsg idx r.model r.pk (errTypeName e) (errText e)), db2)
    else
      if pkExists db m r.pk then (.skippedDup, db)
      else
        match createEntity db m r.pk c.2 with
        | .error e => (.skippedErr (skipErrMsg idx r.model r.pk e), db)
        | .ok db1 =>
          match applyM2m m r.pk db1 c.1 with
          | (db2, none) => (.created, db2)
          | (_, some e) =>
            (.createdThenErr (skipErrMsg idx r.model r.pk e), db)

/-- Partial statistics accumulated by the record loop. -/
structure ImDelta where
  created : Nat
  updated : Nat
  skipped : Nat
  errors : List String
deriving DecidableEq, Repr

/-- Add one record's outcome in front of the statistics of the remaining
records. -/
def addDelta (o : Outcome) (d : ImDelta) : ImDelta :=
  ⟨dCreated o + d.created, dUpdated o + d.updated, dSkipped o + d.skipped,
    errsOf o ++ d.errors⟩

/-- The record loop (`for idx, item in enumerate(fixture_data, start=1)`). -/
def processAll (dh : String) : Nat → DB → List FixtureRecord → ImDelta × DB
  | _, db, [] => (⟨0, 0, 0, []⟩, db)
  | idx, db, r :: rs =>
    let (o, db1) := processRecord dh db idx r
    let (d, db2) := processAll dh (idx + 1) db1 rs
    (addDelta o d, db2)

/-- The statistics dictionary returned by `import_fixture_file`. -/
structure ImportStats where
  total : Nat
  created : Nat
  updated : Nat
  skipped : Nat
  errors : List String
deriving DecidableEq, Repr

/-- Import of a parsed, non-degenerate fixture list: set `total` and run the
record loop from index 1. -/
def runFixture (dh : String) (records : List FixtureRecord) (db : DB) :
    ImportStats × DB :=
  let (d, db') := processAll dh 1 db records
  (⟨records.length, d.created, d.updated, d.skipped, d.errors⟩, db')

/-- The parsed-YAML shapes relevant to `import_fixture_file`: `null`
(empty file), a record list, or some other (truthy) top-level value. -/
inductive Yaml
  | null
  | list (rs : List FixtureRecord)
  | other
deriving Repr

/-- Full embedding of `import_fixture_file` after the YAML parse: a falsy
parse result returns the zero statistics untouched, a non-list raises
ValueError, otherwise the record loop runs.  The returned store stands for
the database side effects. -/
def fixtureFileImport (data : Yaml) (dh : String) (db : DB) :
    Except String (ImportStats × DB) :=
  match data with
  | .null => .ok (⟨0, 0, 0, 0, []⟩, db)
  | .list rs =>
    if rs.isEmpty then .ok (⟨0, 0, 0, 0, []⟩, db)
    else .ok (runFixture dh rs db)
  | .other => .error "YAML file must contain a list of objects"

/-! ## Part 2: the fixture builder (`convert_csv_to_yaml.py`)

A CSV file is consumed through `csv.DictReader` as an ordered sequence of
rows with the six named columns the converter reads; the filename-to-tag
derivation (`csv_file.stem.replace(...)`) and all file writing are
filesystem glue outside the embedding, so a file arrives as its tag name,
its display name and its rows. -/

/-- One CSV row, keyed by the columns the converter reads:
Company/Manufacturer, Product, Path/Bank, Program, Notes, Examples
(`row.get(col, "")`). -/
structure Row where
  company : String
  product : String
  pathBank : String
  program : String
  notes : String
  examples : String
deriving DecidableEq, Repr

/-- A CSV file presented to the converter: tag name (derived from the file
name), display name (for the skip report) and data rows. -/
structure CsvFile where
  tagName : String
  name : String
  rows : List Row
deriving DecidableEq, Repr

/-- `CSVConverter.slugify`: lower, strip, drop characters outside
word/whitespace/hyphen, collapse hyphen/whitespace runs to a hyphen. -/
def slugify (text : String) : String :=
  let t := pyStrip (pyLower text)
  let kept := t.data.filter
    (fun c => c.isAlphanum || c == '_' || c.isWhitespace || c == '-')
  let rec collapse : Bool → List Char → List Char
    | _, [] => []
    | prev, c :: rest =>
      if c == '-' || c.isWhitespace then
        if prev then collapse true rest else '-' :: collapse true rest
      else c :: collapse false rest
  String.mk (collapse false kept)

/-- The section marker phrases of `is_game_title_row` (lines 93-102). -/
def sectionPatternsTitle : List String :=
  ["STUFF TO FIND", "SOURCES", "NOTES", "DESCRIPTION", "TABLE OF CONTENTS",
   "JUMP TO:", "SECTION", "BASE GAME"]

/-- The game-title indicator substrings (lines 123-142). -/
def gameIndicators : List String :=
  [":", "(", "HD", "Remaster", "Remake", "Edition", "Wii", "PlayStation",
   "Xbox", "Nintendo", "PC", "Switch", "3DS", "GameCube", "Arcade", "SNES",
   "N64", "★"]

/-- `re.search(r"\(Released:", product, re.IGNORECASE)` as a boolean. -/
def hasReleasedMarker (product : String) : Bool :=
  strHasSub (pyLower product) "(released:"

/-- `CSVConverter.is_game_title_row` (lines 71-157). -/
def is_game_title_row (row : Row) : Bool :=
  let company := pyStrip row.company
  let product := pyStrip row.product
  let path_bank := pyStrip row.pathBank
  let program := pyStrip row.program
  if company == "" then false
  else if sectionPatternsTitle.any (fun p => strHasSub (pyUpper company) p) then
    false
  else if pyStartsWith company "Please remember" || pyStartsWith company "(Click" then
    false
  else if company.length < 10 then false
  else
    let has_release_date :=
      if product != "" then hasReleasedMarker product else false
    let indicatorHit :=
      if (product == "" || has_release_date) && path_bank == "" && program == "" then
        if gameIndicators.any (fun i => strHasSub company i) then true
        else company.length >= 20
      else false
    if indicatorHit then true
    else
      let other_cols_filled :=
        ((([product, path_bank, program].filter
          (fun col => col != "" && col.length > 5 && !has_release_date))).length)
      other_cols_filled <= 1 && company.length >= 15

/-- `CSVConverter.is_section_header` (lines 159-180). -/
def is_section_header (row : Row) : Bool :=
  let company := pyUpper (pyStrip row.company)
  (["STUFF TO FIND", "SOURCES", "NOTES", "DESCRIPTION", "TABLE OF CONTENTS",
    "JUMP TO:", "SECTION", "BASE GAME", "PLEASE REMEMBER"]).any
    (fun p => strHasSub company p)

/-- The sound-source dictionary built by `parse_sound_source_row`
(empty column values become None). -/
structure SSData where
  name : String
  company : Option String
  product : Option String
  bank : Option String
  games : List String
  notes : String
deriving DecidableEq, Repr

/-- Python truthiness of the optional string slots of `SSData`. -/
def optTruthy : Option String → Bool
  | some s => s != ""
  | none => false

/-- `CSVConverter.parse_sound_source_row` (lines 182-236). -/
def parse_sound_source_row (row : Row) (current_game_title : String) :
    Option SSData :=
  let company := pyStrip row.company
  let product := pyStrip row.product
  let path_bank := pyStrip row.pathBank
  let program := pyStrip row.program
  let notes := pyStrip row.notes
  let examples := pyStrip row.examples
  if company == "" && product == "" then none
  else if is_section_header row then none
  else if is_game_title_row row then none
  else
    let name := if program != "" then program else company
    if name == "" || name.length < 2 then none
    else
      let full_notes :=
        (if notes != "" then [notes] else []) ++
        (if examples != "" then ["Examples: " ++ examples] else []) ++
        (if path_bank != "" && !strHasSub name path_bank then
          ["Path/Bank: " ++ path_bank] else [])
      some
        { name := name
          company := if company != "" then some company else none
          product := if product != "" then some product else none
          bank := if path_bank != "" then some path_bank else none
          games := if current_game_title != "" then [current_game_title] else []
          notes := if !full_notes.isEmpty then String.intercalate " | " full_notes else "" }

/-- The per-game dictionary accumulated while scanning a file. -/
structure GameData where
  title : String
  tags : List String
  release_date : Option String
  release_year : Option Nat
  notes : String
deriving DecidableEq, Repr

/-- One entry of the skipped-lines report. -/
structure Skipped where
  file : String
  row : Nat
  content : String
  reason : String
deriving DecidableEq, Repr

/-- `re.search(r"\((\d{4})\)", s)`: the first position where an opening
parenthesis is followed by exactly four digits and a closing parenthesis;
returns the four-digit number. -/
def yearAt : List Char → Option Nat
  | '(' :: a :: b :: c :: d :: ')' :: _ =>
    if a.isDigit && b.isDigit && c.isDigit && d.isDigit then
      some ((a.toNat - 48) * 1000 + (b.toNat - 48) * 100 +
        (c.toNat - 48) * 10 + (d.toNat - 48))
    else none
  | _ => none

/-- Scan of all start positions for the year pattern (first match wins). -/
def searchYear : List Char → Option Nat
  | [] => none
  | c :: rest =>
    match yearAt (c :: rest) with
    | some y => some y
    | none => searchYear rest

/-- The converter's accumulated state (the `self.*` dictionaries, counters
and lists; dictionaries are insertion-ordered association lists exactly as
Python dicts are). -/
structure ConvState where
  gametags : List (String × Nat × String)
  companies : List (String × Nat)
  products : List ((String × String) × Nat)
  banks : List ((String × String × String) × Nat)
  games : List (String × Nat)
  game_to_tag : List (String × String)
  skipped_lines : List Skipped
  gametag_pk : Nat
  company_pk : Nat
  product_pk : Nat
  bank_pk : Nat
  game_pk : Nat
  soundsource_pk : Nat
  all_games : List GameData
  all_sound_sources : List SSData
deriving DecidableEq, Repr

/-- Converter state after `__init__`. -/
def initConvState : ConvState :=
  ⟨[], [], [], [], [], [], [], 1, 1, 1, 1, 1, 1, [], []⟩

/-- The per-file scan accumulator (`games`, `sound_sources`,
`current_game_title`/`current_game_data`, and the skip entries appended to
`self.skipped_lines` during the scan). -/
structure LoopAcc where
  games : List GameData
  srcs : List SSData
  cur : Option GameData
  skipped : List Skipped
deriving DecidableEq, Repr

/-- The game dictionary started when a title row is recognized
(lines 281-304): release year from the title, else from the Product
column. -/
def mkGameData (tag game_title : String) (row : Row) : GameData :=
  let year :=
    match searchYear game_title.data with
    | some y => some y
    | none => searchYear (pyStrip row.product).data
  ⟨game_title, [tag], none, year, ""⟩

/-- Body of the row loop of `process_csv_file` (lines 273-321). -/
def processRow (fname tag : String) (acc : LoopAcc) (idx : Nat) (row : Row) :
    LoopAcc :=
  if is_game_title_row row then
    let acc1 :=
      match acc.cur with
      | some g => { acc with games := acc.games ++ [g] }
      | none => acc
    let game_title := pyStrip row.company
    if game_title != "" then { acc1 with cur := some (mkGameData tag game_title row) }
    else acc1
  else
    match acc.cur with
    | some g =>
      match parse_sound_source_row row g.title with
      | some ss => { acc with srcs := acc.srcs ++ [ss] }
      | none =>
        let company := pyStrip row.company
        if company != "" then
          { acc with skipped := acc.skipped ++
              [⟨fname, idx, company.take 100,
                "Could not parse as sound source or game title"⟩] }
        else acc
    | none => acc

/-- The row loop, rows numbered from 2 (after the header line). -/
def rowsLoop (fname tag : String) : Nat → LoopAcc → List Row → LoopAcc
  | _, acc, [] => acc
  | idx, acc, row :: rest => rowsLoop fname tag (idx + 1) (processRow fname tag acc idx row) rest

/-- `CSVConverter.process_csv_file` (lines 238-330): register the file's
GameTag, scan the rows, flush the last open game, extend the global
lists. -/
def process_csv_file (st : ConvState) (file : CsvFile) : ConvState :=
  let tag := file.tagName
  let st :=
    if (st.gametags.find? (fun p => p.1 == tag)).isSome then st
    else { st with gametags := st.gametags ++ [(tag, st.gametag_pk, slugify tag)],
                   gametag_pk := st.gametag_pk + 1 }
  let acc := rowsLoop file.name tag 2 ⟨[], [], none, []⟩ file.rows
  let finalGames :=
    match acc.cur with
    | some g => acc.games ++ [g]
    | none => acc.games
  { st with all_games := st.all_games ++ finalGames,
            all_sound_sources := st.all_sound_sources ++ acc.srcs,
            skipped_lines := st.skipped_lines ++ acc.skipped }

/-- `CSVConverter.resolve_relationships` (lines 332-365): first-occurrence
synthetic keys for games, companies, products and banks. -/
def resolve_relationships (st : ConvState) : ConvState :=
  let st := st.all_games.foldl
    (fun s g =>
      if (s.games.find? (fun p => p.1 == g.title)).isSome then s
      else { s with games := s.games ++ [(g.title, s.game_pk)],
                    game_to_tag := s.game_to_tag ++ [(g.title, g.tags.headD "")],
                    game_pk := s.game_pk + 1 }) st
  st.all_sound_sources.foldl
    (fun s ss =>
      let s :=
        if optTruthy ss.company then
          let c := ss.company.getD ""
          if (s.companies.find? (fun p => p.1 == c)).isSome then s
          else { s with companies := s.companies ++ [(c, s.company_pk)],
                        company_pk := s.company_pk + 1 }
        else s
      let s :=
        if optTruthy ss.product && optTruthy ss.company then
          let key := (ss.product.getD "", ss.company.getD "")
          if (s.products.find? (fun p => p.1 == key)).isSome then s
          else { s with products := s.products ++ [(key, s.product_pk)],
                        product_pk := s.product_pk + 1 }
        else s
      if optTruthy ss.bank && optTruthy ss.product && optTruthy ss.company then
        let key := (ss.bank.getD "", ss.product.getD "", ss.company.getD "")
        if (s.banks.find? (fun p => p.1 == key)).isSome then s
        else { s with banks := s.banks ++ [(key, s.bank_pk)],
                      bank_pk := s.bank_pk + 1 }
      else s) st

/-! ### Emission (`CSVConverter.generate_yaml`, lines 367-541) -/

/-- Emitted GameTag record. -/
structure GameTagOut where
  pk : Nat
  name : String
  slug : String
  description : String
deriving DecidableEq, Repr

/-- Emitted Company record. -/
structure CompanyOut where
  pk : Nat
  name : String
  notes : String
deriving DecidableEq, Repr

/-- Emitted Product record. -/
structure ProductOut where
  pk : Nat
  name : String
  company : Nat
  notes : String
deriving DecidableEq, Repr

/-- Emitted Bank record. -/
structure BankOut where
  pk : Nat
  name : String
  product : Nat
  notes : String
deriving DecidableEq, Repr

/-- Emitted Game record. -/
structure GameOut where
  pk : Nat
  title : String
  release_date : Option String
  release_year : Option Nat
  album_artists : List Nat
  tags : List Nat
  notes : String
deriving DecidableEq, Repr

/-- Emitted SoundSource record. -/
structure SoundSourceOut where
  pk : Nat
  name : String
  bank : Option Nat
  product : Option Nat
  discoverers : List Nat
  games : List Nat
  songs : List Nat
  notes : String
deriving DecidableEq, Repr

/-- The six emitted collections plus the skipped-lines report. -/
structure Output where
  gametags : List GameTagOut
  companies : List CompanyOut
  products : List ProductOut
  banks : List BankOut
  games : List GameOut
  soundsources : List SoundSourceOut
  skippedLines : List Skipped
deriving DecidableEq, Repr

/-- Stable insertion of `a` into a sorted list under `le` (Python `sorted`
is a stable sort; the keys sorted here are distinct dict keys). -/
def insertLeBy {α : Type} (le : α → α → Bool) (a : α) : List α → List α
  | [] => [a]
  | b :: bs => if le a b then a :: b :: bs else b :: insertLeBy le a bs

/-- Sorting by a boolean order (Python `sorted`). -/
def sortLeBy {α : Type} (le : α → α → Bool) : List α → List α
  | [] => []
  | a :: as => insertLeBy le a (sortLeBy le as)

/-- String order of Python (code-point lexicographic). -/
def strLe (a b : String) : Bool := pyStrLe a b

/-- Lexicographic order on string pairs. -/
def strLe2 (a b : String × String) : Bool :=
  if a.1 == b.1 then strLe a.2 b.2 else strLe a.1 b.1

/-- Lexicographic order on string triples. -/
def strLe3 (a b : String × String × String) : Bool :=
  if a.1 == b.1 then strLe2 a.2 b.2 else strLe a.1 b.1

/-- Python truthiness of an optional integer (`if company_pk:` and the
`if not bank_pk and not product_pk:` guards). -/
def natTruthy : Option Nat → Bool
  | some n => n != 0
  | none => false

/-- `bank_pk` resolution for one sound source (lines 453-459). -/
def ssBankPk (st : ConvState) (ss : SSData) : Option Nat :=
  if optTruthy ss.bank && optTruthy ss.product && optTruthy ss.company then
    (st.banks.find? (fun p =>
      p.1 == (ss.bank.getD "", ss.product.getD "", ss.company.getD ""))).map (·.2)
  else none

/-- `product_pk` lookup for one sound source (lines 461-463), against the
threaded `self.products` dictionary. -/
def ssProductPk (products : List ((String × String) × Nat)) (ss : SSData) :
    Option Nat :=
  if optTruthy ss.product && optTruthy ss.company then
    (products.find? (fun p =>
      p.1 == (ss.product.getD "", ss.company.getD ""))).map (·.2)
  else none

/-- The company fallback (lines 465-478): when neither key resolved and the
company is known, register (company, company) as a product, reusing the
existing synthetic key if present.  Returns the updated products dictionary,
the updated `product_pk` counter, and the resolved `product_pk`. -/
def ssFallback (st : ConvState) (products : List ((String × String) × Nat))
    (ppk : Nat) (ss : SSData) (bank_pk product_pk : Option Nat) :
    List ((String × String) × Nat) × Nat × Option Nat :=
  if !natTruthy bank_pk && !natTruthy product_pk then
    if optTruthy ss.company then
      let c := ss.company.getD ""
      if (st.companies.find? (fun p => p.1 == c)).isSome then
        match (products.find? (fun p => p.1 == (c, c))).map (·.2) with
        | none => (products ++ [((c, c), ppk)], ppk + 1, some ppk)
        | some pk0 => (products, ppk, some pk0)
      else (products, ppk, product_pk)
    else (products, ppk, product_pk)
  else (products, ppk, product_pk)

/-- The sound-source emission loop (step 6 of `generate_yaml`,
lines 450-503).  It reads the converter state and additionally THREADS the
`self.products` dictionary and the `self.product_pk` counter, because the
company-name fallback mutates them mid-emission; `spk` is
`self.soundsource_pk`. -/
def buildSoundSources (st : ConvState) :
    List ((String × String) × Nat) → Nat → Nat → List SoundSourceOut →
    List SSData → List ((String × String) × Nat) × Nat × Nat × List SoundSourceOut
  | products, ppk, spk, acc, [] => (products, ppk, spk, acc)
  | products, ppk, spk, acc, ss :: rest =>
    let bank_pk := ssBankPk st ss
    let fb := ssFallback st products ppk ss bank_pk (ssProductPk products ss)
    if !natTruthy bank_pk && !natTruthy fb.2.2 then
      buildSoundSources st fb.1 fb.2.1 spk acc rest
    else
      let game_pks := ss.games.filterMap
        (fun t => (st.games.find? (fun p => p.1 == t)).map (·.2))
      buildSoundSources st fb.1 fb.2.1 (spk + 1)
        (acc ++ [⟨spk, ss.name, bank_pk, fb.2.2, [], game_pks, [], ss.notes⟩])
        rest

/-- `CSVConverter.generate_yaml` (lines 367-541).  Steps 1-5 serialize the
dictionaries as they stand; step 6 then walks the sound sources, possibly
growing `self.products` via the company fallback — the Product records
emitted in step 3 are not revisited. -/
def generate_yaml (st : ConvState) : Output :=
  let gametags := (sortLeBy (fun a b => strLe a.1 b.1) st.gametags).map
    (fun p => GameTagOut.mk p.2.1 p.1 p.2.2 "")
  let companies := (sortLeBy (fun a b => strLe a.1 b.1) st.companies).map
    (fun p => CompanyOut.mk p.2 p.1 "")
  let products := (sortLeBy (fun a b => strLe2 a.1 b.1) st.products).filterMap
    (fun p =>
      let cpk := (st.companies.find? (fun q => q.1 == p.1.2)).map (·.2)
      if natTruthy cpk then some (ProductOut.mk p.2 p.1.1 (cpk.getD 0) "")
      else none)
  let banks := (sortLeBy (fun a b => strLe3 a.1 b.1) st.banks).filterMap
    (fun p =>
      let ppk := (st.products.find? (fun q => q.1 == (p.1.2.1, p.1.2.2))).map (·.2)
      if natTruthy ppk then some (BankOut.mk p.2 p.1.1 (ppk.getD 0) "")
      else none)
  let games := st.all_games.filterMap
    (fun g =>
      let gpk := (st.games.find? (fun q => q.1 == g.title)).map (·.2)
      if natTruthy gpk then
        let tag_pks := g.tags.filterMap
          (fun tn => (st.gametags.find? (fun q => q.1 == tn)).map (·.2.1))
        some (GameOut.mk (gpk.getD 0) g.title g.release_date g.release_year
          [] tag_pks (if g.notes != "" then g.notes else ""))
      else none)
  let ssOut := (buildSoundSources st st.products st.product_pk
    st.soundsource_pk [] st.all_sound_sources).2.2.2
  ⟨gametags, companies, products, banks, games, ssOut, st.skipped_lines⟩

/-- `CSVConverter.convert` restricted to its computation: process the files
in order, resolve relationships, emit (directory globbing, status files and
printing are filesystem glue). -/
def runConverter (files : List CsvFile) : Output :=
  generate_yaml (resolve_relationships (files.foldl process_csv_file initConvState))

/-! ## Concrete fixtures and rows used by the witnesses and counterexamples -/

/-- A game fixture record whose many-to-many `tags` field carries a scalar
instead of a list (a YAML-representable shape the importer accepts as
input). -/
def c1BadRec : FixtureRecord :=
  ⟨"games.Game", 1, [("title", .vStr "Some Game"), ("tags", .vNat 1)]⟩

/-- A company record with list-free fields, used as a well-formed input. -/
def c1GoodRec : FixtureRecord :=
  ⟨"sources.Company", 1, [("name", .vStr "Konami"), ("notes", .vStr "")]⟩

/-- A record whose model path resolves to no installed model. -/
def c2UnknownRec : FixtureRecord := ⟨"unknown.Model", 7, []⟩

/-- A company record processed after the unknown-model record. -/
def c2CompanyRec : FixtureRecord :=
  ⟨"sources.Company", 1, [("name", .vStr "Nintendo"), ("notes", .vStr "")]⟩

/-- A game record carrying a list-valued `tags` field. -/
def c3GameRec : FixtureRecord :=
  ⟨"games.Game", 4,
    [("title", .vStr "G"), ("tags", .vList [1]), ("album_artists", .vList [])]⟩

/-- A database holding one game tag, one game with pk 4 and an existing
`tags` membership, used to exercise the overwrite policy. -/
def c3DB : DB :=
  { emptyDB with
      gametags := [⟨1, "Zelda", "zelda", ""⟩, ⟨2, "Mario", "mario", ""⟩]
      games := [⟨4, "Old title", none, none, ""⟩]
      rels := [((ModelName.game, 4, "album_artists"), [9])] }

/-- A company record used to exercise the per-record transaction. -/
def c4CompanyRec : FixtureRecord :=
  ⟨"sources.Company", 2, [("name", .vStr "Roland"), ("notes", .vStr "")]⟩

/-- A database already holding a company named Roland under another pk, so
creating `c4CompanyRec` violates the unique name constraint. -/
def c4DB : DB := { emptyDB with companies := [⟨1, "Roland", ""⟩] }

/-- A product record referencing company pk 1 before it exists. -/
def c5ProductRec : FixtureRecord :=
  ⟨"sources.Product", 1,
    [("name", .vStr "SC-88"), ("company", .vNat 1), ("notes", .vStr "")]⟩

/-- The company record that only gets created after `c5ProductRec` was
attempted. -/
def c5CompanyRec : FixtureRecord :=
  ⟨"sources.Company", 1, [("name", .vStr "Roland"), ("notes", .vStr "")]⟩

/-- A dependency-ordered two-record fixture (company before product). -/
def c5GoodFixture : List FixtureRecord :=
  [⟨"sources.Company", 1, [("name", .vStr "Yamaha"), ("notes", .vStr "")]⟩,
   ⟨"sources.Product", 1,
     [("name", .vStr "DX7"), ("company", .vNat 1), ("notes", .vStr "")]⟩]

/-- A game-title row (primary column long, with a colon, auxiliary columns
empty). -/
def zeldaTitleRow : Row := ⟨"The Legend of Zelda: Ocarina", "", "", "", "", ""⟩

/-- A sound-source row carrying a product but no company: it parses as a
sound source, resolves neither bank nor product at emission, and is
dropped without a skip-report entry. -/
def productOnlyRow : Row := ⟨"", "SoundFontX", "", "AB", "", ""⟩

/-- The single-file input for the emission-drop scenario. -/
def c6File : CsvFile := ⟨"Zelda", "zelda.csv", [zeldaTitleRow, productOnlyRow]⟩

/-- A game-title row for the fallback-product scenario. -/
def marioTitleRow : Row := ⟨"Super Mario World: SNES", "", "", "", "", ""⟩

/-- A sound-source row with a company only: the emitted record receives a
fallback product key synthesized from the company name. -/
def companyOnlyRow : Row := ⟨"CompCo", "", "", "AB", "", ""⟩

/-- The single-file input for the fallback-product scenario. -/
def c7File : CsvFile := ⟨"Mario", "mario.csv", [marioTitleRow, companyOnlyRow]⟩

/-- The example row of the specification: primary column
"Super Mario Bros.: Special Edition (1988)", auxiliary columns empty. -/
def smbRow : Row :=
  ⟨"Super Mario Bros.: Special Edition (1988)", "", "", "", "", ""⟩

/-- The single-file input around the specification's example row. -/
def c8File : CsvFile := ⟨"Mario", "mario.csv", [smbRow]⟩

/-- A row that is neither a game title (too short) nor inside a game
context: the converter drops it without recording anything. -/
def strayRow : Row := ⟨"ABC", "", "", "", "", ""⟩

/-- The single-file input for the silent-drop scenario. -/
def c9File : CsvFile := ⟨"Tag", "tag.csv", [strayRow]⟩

/-- A full sound-source row (bank, product and company all present) under a
game context, used as witness input. -/
def fullSourceRow : Row := ⟨"Roland", "SC-88", "PathA", "Piano 1", "", ""⟩

/-- Witness input file containing an emitted sound source. -/
def c6WitnessFile : CsvFile := ⟨"Mario", "mario.csv", [marioTitleRow, fullSourceRow]⟩

/-- A game context as it stands while scanning rows (used as witness
input). -/
def c9GameData : GameData := ⟨"Some Game: X", ["Tag"], none, none, ""⟩

/-- A section-header row ("NOTES"): under an active game context it fails
to parse as a sound source and must be recorded in the skip report. -/
def c9NotesRow : Row := ⟨"NOTES", "", "", "", "", ""⟩

/-- A record with an unresolvable model path, used as witness input. -/
def c9BadRec : FixtureRecord := ⟨"nope.Nope", 9, []⟩

/-- The sound source emitted for `c6WitnessFile`. -/
def c6WitnessOut : SoundSourceOut :=
  ⟨1, "Piano 1", some 1, some 1, [], [1], [], "Path/Bank: PathA"⟩

/-- Do all many-to-many classified fields of the mapping carry list
values?  (True of every fixture the builder writes.) -/
def listsOnlyM2m (m : ModelName) (fields : List (String × FieldValue)) : Bool :=
  fields.all (fun fv =>
    match fieldKind m fv.1, fv.2 with
    | .m2m _, .vList _ => true
    | .m2m _, _ => false
    | _, _ => true)

/-- A record is list-clean when its model either does not resolve or all
its many-to-many fields carry lists. -/
def goodRecord (r : FixtureRecord) : Bool :=
  match resolveModel r.model with
  | none => true
  | some m => listsOnlyM2m m r.fields

/-- Outcomes that represent a rejection (they carry an error message). -/
def isErrOutcome : Outcome → Bool
  | .skippedErr _ => true
  | .createdThenErr _ => true
  | .updatedThenErr _ => true
  | _ => false

/-- A scan accumulator with the `c9GameData` context active (witness
input). -/
def c9Acc : LoopAcc := ⟨[], [], some c9GameData, []⟩

/-! ## Theorems -/

/-- C10: importing a fixture whose parsed content is empty (a null parse or
an empty record list) returns total = created = updated = skipped = 0 with
an empty error list, for any duplicate policy, and leaves the stored state
unchanged. -/
theorem c10_empty_fixture (dh : String) (db : DB) :
    fixtureFileImport .null dh db = .ok (⟨0, 0, 0, 0, []⟩, db) ∧
    fixtureFileImport (.list []) dh db = .ok (⟨0, 0, 0, 0, []⟩, db) :=
  ⟨rfl, rfl⟩

/-- C8: the row whose primary column is
"Super Mario Bros.: Special Edition (1988)" with empty auxiliary columns is
classified as a game-title row, and the emitted Game record carries release
year 1988. -/
theorem c8_smb_row :
    is_game_title_row smbRow = true ∧
    (runConverter [c8File]).games =
      [⟨1, "Super Mario Bros.: Special Edition (1988)", none, some 1988, [], [1], ""⟩] := by
  exact ⟨by decide, by decide⟩

/-- C7 (failing evaluation): on a file whose only sound source names a
company but no product, the builder emits a SoundSource whose product key 1
was synthesized by the company-name fallback, while the emitted Product
collection is empty — the output is not referentially closed. -/
theorem c7_fallback_product_not_emitted :
    (runConverter [c7File]).products = [] ∧
    (runConverter [c7File]).soundsources.map (·.product) = [some 1] := by
  exact ⟨by decide, by decide⟩

/-- C1 (counterexample): for the one-record fixture whose many-to-many
`tags` value is the scalar 1, the skip-policy import counts the record both
as created and as skipped, so created + updated + skipped exceeds total. -/
theorem c1_counterexample :
    (runFixture "skip" [c1BadRec] emptyDB).1.created +
      (runFixture "skip" [c1BadRec] emptyDB).1.updated +
      (runFixture "skip" [c1BadRec] emptyDB).1.skipped ≠
    (runFixture "skip" [c1BadRec] emptyDB).1.total := by decide

/-- C2 (counterexample): a record with an unrecognized entity type does not
fail the whole operation — the following record is still processed and
created. -/
theorem c2_counterexample :
    (runFixture "skip" [c2UnknownRec, c2CompanyRec] emptyDB).1.created = 1 ∧
    (runFixture "skip" [c2UnknownRec, c2CompanyRec] emptyDB).2.companies =
      [⟨1, "Nintendo", ""⟩] := by
  exact ⟨by decide, by decide⟩

/-- C5 (counterexample): a fixture whose product record references a
company created later in the same batch imports with one error on the first
skip-policy pass, and on the second pass the product is created (created =
1, not 0, and not every record is a duplicate skip). -/
theorem c5_counterexample :
    (runFixture "skip" [c5ProductRec, c5CompanyRec]
      (runFixture "skip" [c5ProductRec, c5CompanyRec] emptyDB).2).1.created = 1 := by
  decide

/-- C6 (counterexample): the product-only row parses as a sound source, is
dropped at emission because neither bank nor product resolves, yet the skip
report stays empty — the drop is silent. -/
theorem c6_counterexample :
    (parse_sound_source_row productOnlyRow "The Legend of Zelda: Ocarina").isSome = true ∧
    (runConverter [c6File]).soundsources = [] ∧
    (runConverter [c6File]).skippedLines = [] := by
  exact ⟨by decide, by decide, by decide⟩

/-- C9 (counterexample): a non-title row arriving before any game context
is rejected silently — nothing is emitted for it and the skip report stays
empty. -/
theorem c9_counterexample :
    (runConverter [c9File]).skippedLines = [] ∧
    (runConverter [c9File]).games = [] ∧
    (runConverter [c9File]).soundsources = [] ∧
    (runConverter [c9File]).companies = [] := by
  exact ⟨by decide, by decide, by decide, by decide⟩



theorem setM2mField_ok_shape {db : DB} {m : ModelName} {pk : Nat} {f : String}
    {t : RelTarget} {v : FieldValue} {db' : DB}
    (h : setM2mField db m pk f t v = .ok db') :
    ∃ vs, v = .vList vs ∧ db' = addRel db m pk f (resolvedSet db t vs) := by
  cases v with
  | vList vs => exact ⟨vs, rfl, by simpa [setM2mField] using h.symm⟩
  | vNull => simp [setM2mField] at h
  | vNat n => simp [setM2mField] at h
  | vStr s => simp [setM2mField] at h

theorem pksOf_addRel (db : DB) (m : ModelName) (pk : Nat) (f : String)
    (vs : List Nat) (m' : ModelName) :
    pksOf (addRel db m pk f vs) m' = pksOf db m' := by
  cases m' <;> rfl

theorem relatedPks_addRel (db : DB) (m : ModelName) (pk : Nat) (f : String)
    (vs : List Nat) (t : RelTarget) :
    relatedPks (addRel db m pk f vs) t = relatedPks db t := by
  cases t with
  | rm m'' => exact pksOf_addRel db m pk f vs m''
  | rUser => rfl

theorem applyM2m_pksOf (m : ModelName) (pk : Nat)
    (l : List (String × RelTarget × FieldValue)) :
    ∀ (db : DB) (m' : ModelName), pksOf (applyM2m m pk db l).1 m' = pksOf db m' := by
  induction l with
  | nil => intro db m'; rfl
  | cons e rest ih =>
    intro db m'
    obtain ⟨f, t0, v⟩ := e
    by_cases hv : isTruthy v
    · cases hs : setM2mField db m pk f t0 v with
      | ok db1 =>
        obtain ⟨vs, hvv, hdb1⟩ := setM2mField_ok_shape hs
        have heq : applyM2m m pk db ((f, t0, v) :: rest) = applyM2m m pk db1 rest := by
          simp [applyM2m, hv, hs]
        rw [heq, ih db1 m', hdb1, pksOf_addRel]
      | error e =>
        have heq : applyM2m m pk db ((f, t0, v) :: rest) = (db, some e) := by
          simp [applyM2m, hv, hs]
        rw [heq]
    · have heq : applyM2m m pk db ((f, t0, v) :: rest) = applyM2m m pk db rest := by
        simp [applyM2m, hv]
      rw [heq, ih db m']

theorem applyM2m_relatedPks (m : ModelName) (pk : Nat)
    (l : List (String × RelTarget × FieldValue)) :
    ∀ (db : DB) (t : RelTarget), relatedPks (applyM2m m pk db l).1 t = relatedPks db t := by
  intro db t
  cases t with
  | rm m'' => exact applyM2m_pksOf m pk l db m''
  | rUser =>
    induction l generalizing db with
    | nil => rfl
    | cons e rest ih =>
      obtain ⟨f, t0, v⟩ := e
      by_cases hv : isTruthy v
      · cases hs : setM2mField db m pk f t0 v with
        | ok db1 =>
          obtain ⟨vs, hvv, hdb1⟩ := setM2mField_ok_shape hs
          have heq : applyM2m m pk db ((f, t0, v) :: rest) = applyM2m m pk db1 rest := by
            simp [applyM2m, hv, hs]
          rw [heq, ih db1, hdb1]
          rfl
        | error e =>
          have heq : applyM2m m pk db ((f, t0, v) :: rest) = (db, some e) := by
            simp [applyM2m, hv, hs]
          rw [heq]
      · have heq : applyM2m m pk db ((f, t0, v) :: rest) = applyM2m m pk db rest := by
          simp [applyM2m, hv]
        rw [heq, ih db]

theorem applyM2m_ok_of_lists (m : ModelName) (pk : Nat)
    (l : List (String × RelTarget × FieldValue)) :
    ∀ (db : DB), (∀ e ∈ l, ∃ vs, e.2.2 = FieldValue.vList vs) →
      (applyM2m m pk db l).2 = none := by
  induction l with
  | nil => intro db _; rfl
  | cons e rest ih =>
    intro db h
    obtain ⟨f, t0, v⟩ := e
    obtain ⟨vs, hv⟩ := h (f, t0, v) (by simp)
    simp only at hv
    subst hv
    by_cases hv : isTruthy (FieldValue.vList vs)
    · have heq : applyM2m m pk db ((f, t0, FieldValue.vList vs) :: rest) =
          applyM2m m pk (addRel db m pk f (resolvedSet db t0 vs)) rest := by
        simp [applyM2m, hv, setM2mField]
      rw [heq]
      exact ih _ (fun e he => h e (by simp [he]))
    · have heq : applyM2m m pk db ((f, t0, FieldValue.vList vs) :: rest) =
          applyM2m m pk db rest := by
        simp [applyM2m, hv]
      rw [heq]
      exact ih db (fun e he => h e (by simp [he]))

theorem classifyFields_m2m_mem (db : DB) (m : ModelName)
    (fields : List (String × FieldValue)) :
    ∀ e ∈ (classifyFields db m fields).1,
      (e.1, e.2.2) ∈ fields ∧ fieldKind m e.1 = .m2m e.2.1 := by
  induction fields with
  | nil => intro e he; simp [classifyFields] at he
  | cons fv rest ih =>
    intro e he
    obtain ⟨f, v⟩ := fv
    simp only [classifyFields] at he
    cases hk : fieldKind m f with
    | m2m t =>
      rw [hk] at he
      simp only [List.mem_cons] at he
      rcases he with he | he
      · subst he; exact ⟨by simp, hk⟩
      · obtain ⟨h1, h2⟩ := ih e he
        exact ⟨by simp [h1], h2⟩
    | fk t =>
      rw [hk] at he
      obtain ⟨h1, h2⟩ := ih e he
      exact ⟨by simp [h1], h2⟩
    | plain =>
      rw [hk] at he
      obtain ⟨h1, h2⟩ := ih e he
      exact ⟨by simp [h1], h2⟩

theorem classifyFields_m2m_lists (db : DB) (m : ModelName)
    (fields : List (String × FieldValue)) (h : listsOnlyM2m m fields = true) :
    ∀ e ∈ (classifyFields db m fields).1, ∃ vs, e.2.2 = FieldValue.vList vs := by
  intro e he
  obtain ⟨hmem, hk⟩ := classifyFields_m2m_mem db m fields e he
  simp only [listsOnlyM2m, List.all_eq_true] at h
  have := h (e.1, e.2.2) hmem
  rw [hk] at this
  cases hv : e.2.2 <;> rw [hv] at this <;> simp at this ⊢

theorem processRecord_sum (dh : String) (db : DB) (idx : Nat) (r : FixtureRecord)
    (h : goodRecord r = true) :
    dCreated (processRecord dh db idx r).1 + dUpdated (processRecord dh db idx r).1 +
      dSkipped (processRecord dh db idx r).1 = 1 := by
  cases hm : resolveModel r.model with
  | none => simp [processRecord, hm, dCreated, dUpdated, dSkipped]
  | some m =>
    have hgood : listsOnlyM2m m r.fields = true := by
      unfold goodRecord at h; rw [hm] at h; exact h
    have hok : ∀ db1 : DB, (applyM2m m r.pk db1 (classifyFields db m r.fields).1).2 = none :=
      fun db1 => applyM2m_ok_of_lists m r.pk _ db1 (classifyFields_m2m_lists db m r.fields hgood)
    simp only [processRecord, hm]
    split
    · split
      · rcases hu : updateEntity db m r.pk (classifyFields db m r.fields).2 with db1 | db1
        · simp [hu, dCreated, dUpdated, dSkipped]
        · rcases ha : applyM2m m r.pk db1 (classifyFields db m r.fields).1 with ⟨db2, e?⟩
          cases e? with
          | none => simp [hu, ha, dCreated, dUpdated, dSkipped]
          | some e =>
            have := hok db1
            rw [ha] at this
            simp at this
      · rcases hc : createEntity db m r.pk (classifyFields db m r.fields).2 with db1 | db1
        · simp [hc, dCreated, dUpdated, dSkipped]
        · rcases ha : applyM2m m r.pk db1 (classifyFields db m r.fields).1 with ⟨db2, e?⟩
          cases e? with
          | none => simp [hc, ha, dCreated, dUpdated, dSkipped]
          | some e =>
            have := hok db1
            rw [ha] at this
            simp at this
    · split
      · simp [dCreated, dUpdated, dSkipped]
      · rcases hc : createEntity db m r.pk (classifyFields db m r.fields).2 with db1 | db1
        · simp [hc, dCreated, dUpdated, dSkipped]
        · rcases ha : applyM2m m r.pk db1 (classifyFields db m r.fields).1 with ⟨db2, e?⟩
          cases e? with
          | none => simp [hc, ha, dCreated, dUpdated, dSkipped]
          | some e =>
            have := hok db1
            rw [ha] at this
            simp at this

theorem processAll_sum (dh : String) (rs : List FixtureRecord) :
    ∀ (idx : Nat) (db : DB), rs.all goodRecord = true →
      (processAll dh idx db rs).1.created + (processAll dh idx db rs).1.updated +
        (processAll dh idx db rs).1.skipped = rs.length := by
  induction rs with
  | nil => intro idx db _; rfl
  | cons r rest ih =>
    intro idx db h
    simp only [List.all_cons, Bool.and_eq_true] at h
    obtain ⟨o, db1, ho⟩ : ∃ o db1, processRecord dh db idx r = (o, db1) := ⟨_, _, rfl⟩
    have hsum := processRecord_sum dh db idx r h.1
    rw [ho] at hsum
    have heq : processAll dh idx db (r :: rest) =
        (addDelta o (processAll dh (idx + 1) db1 rest).1, (processAll dh (idx + 1) db1 rest).2) := by
      simp [processAll, ho]
    rw [heq]
    have hih := ih (idx + 1) db1 h.2
    simp only [addDelta, List.length_cons]
    simp only at hsum
    omega

/-- C1 (amended): for every fixture whose records carry list values in
their many-to-many fields (as every builder-written fixture does) and for
every duplicate-handling string and starting store, the returned statistics
satisfy created + updated + skipped = total; each such record contributes
exactly one of the three counters. -/
theorem c1_stats_sum_amended (dh : String) (records : List FixtureRecord) (db : DB)
    (h : records.all goodRecord = true) :
    (runFixture dh records db).1.created + (runFixture dh records db).1.updated +
      (runFixture dh records db).1.skipped = (runFixture dh records db).1.total := by
  obtain ⟨d, db2, hd⟩ : ∃ d db2, processAll dh 1 db records = (d, db2) := ⟨_, _, rfl⟩
  have hs := processAll_sum dh records 1 db h
  rw [hd] at hs
  simp [runFixture, hd]
  simpa using hs

theorem pkExists_iff {db : DB} {m : ModelName} {n : Nat} :
    pkExists db m n = true ↔ n ∈ pksOf db m := by
  simp [pkExists, List.contains, List.elem_eq_mem]

theorem except_bind_ok {ε α β : Type} {x : Except ε α} {f : α → Except ε β} {b : β}
    (h : (x >>= f) = .ok b) : ∃ a, x = .ok a ∧ f a = .ok b := by
  cases x with
  | error e => simp [Bind.bind, Except.bind] at h
  | ok a => exact ⟨a, rfl, by simpa [Bind.bind, Except.bind] using h⟩

theorem createEntity_ok_facts {db : DB} {m : ModelName} {pk : Nat}
    {regs : List (String × RField)} {db1 : DB}
    (h : createEntity db m pk regs = .ok db1) :
    pkExists db1 m pk = true ∧ db1.rels = db.rels ∧
      (∀ m' n, pkExists db m' n = true → pkExists db1 m' n = true) := by
  unfold createEntity at h
  split at h
  · simp at h
  · split at h
    · simp at h
    · cases m <;>
        (dsimp only [] at h
         repeat' split at h) <;>
        first
        | exact Except.noConfusion h
        | (simp only [Except.ok.injEq] at h
           subst h
           refine ⟨?_, rfl, ?_⟩
           · rw [pkExists_iff]
             simp only [pksOf, List.map_append]
             exact List.mem_append_right _ (by simp)
           · intro m' n hmem
             rw [pkExists_iff] at hmem ⊢
             cases m' <;> simp only [pksOf, List.map_append] at hmem ⊢ <;>
               first
               | exact hmem
               | exact List.mem_append_left _ hmem)

theorem updateEntity_ok_rels {db : DB} {m : ModelName} {pk : Nat}
    {regs : List (String × RField)} {db1 : DB}
    (h : updateEntity db m pk regs = .ok db1) : db1.rels = db.rels := by
  unfold updateEntity at h
  cases m <;>
      (dsimp only [] at h
       repeat' split at h) <;>
      first
      | exact Except.noConfusion h
      | (simp only [Except.ok.injEq] at h; subst h; rfl)

theorem applyM2m_pkExists (m : ModelName) (pk : Nat)
    (l : List (String × RelTarget × FieldValue)) (db : DB) (m' : ModelName) (n : Nat) :
    pkExists (applyM2m m pk db l).1 m' n = pkExists db m' n := by
  unfold pkExists
  rw [applyM2m_pksOf]

/-- C4: under the skip policy, a record whose identity key is absent is
all-or-nothing: either it ends as `created` with its key present in the
store, or a failure occurred and the store is exactly as before the record
(so no half-created entity is visible and records created earlier in the
batch, already part of that store, persist). -/
theorem c4_skip_create_atomic (db : DB) (idx : Nat) (r : FixtureRecord) (m : ModelName)
    (hm : resolveModel r.model = some m) (habs : pkExists db m r.pk = false) :
    ((processRecord "skip" db idx r).1 = .created ∧
      pkExists (processRecord "skip" db idx r).2 m r.pk = true) ∨
    (isErrOutcome (processRecord "skip" db idx r).1 = true ∧
      (processRecord "skip" db idx r).2 = db) := by
  have hso : (("skip" : String) == "overwrite") = false := rfl
  simp only [processRecord, hm, hso, habs, Bool.false_eq_true, ite_false]
  rcases hc : createEntity db m r.pk (classifyFields db m r.fields).2 with er | db1
  · exact Or.inr ⟨rfl, rfl⟩
  · rcases ha : applyM2m m r.pk db1 (classifyFields db m r.fields).1 with ⟨db2, e?⟩
    cases e? with
    | none =>
      left
      simp only [ha]
      refine ⟨trivial, ?_⟩
      have h2 := applyM2m_pkExists m r.pk (classifyFields db m r.fields).1 db1 m r.pk
      rw [ha] at h2
      simp only at h2
      rw [h2]
      exact (createEntity_ok_facts hc).1
    | some e =>
      simp only [ha]
      exact Or.inr ⟨rfl, trivial⟩

theorem processRecord_skip_mono (db : DB) (idx : Nat) (r : FixtureRecord)
    (m' : ModelName) (n : Nat) (h : pkExists db m' n = true) :
    pkExists (processRecord "skip" db idx r).2 m' n = true := by
  have hso : (("skip" : String) == "overwrite") = false := rfl
  cases hm : resolveModel r.model with
  | none => simpa [processRecord, hm] using h
  | some m =>
    simp only [processRecord, hm, hso, Bool.false_eq_true, ite_false]
    by_cases hex : pkExists db m r.pk
    · simpa [hex] using h
    · simp only [hex, Bool.false_eq_true, ite_false]
      rcases hc : createEntity db m r.pk (classifyFields db m r.fields).2 with er | db1
      · exact h
      · rcases ha : applyM2m m r.pk db1 (classifyFields db m r.fields).1 with ⟨db2, e?⟩
        cases e? with
        | none =>
          simp only [ha]
          have h2 := applyM2m_pkExists m r.pk (classifyFields db m r.fields).1 db1 m' n
          rw [ha] at h2
          simp only at h2
          rw [h2]
          exact (createEntity_ok_facts hc).2.2 m' n h
        | some e =>
          simp only [ha]
          exact h

theorem processRecord_skip_no_error (db : DB) (idx : Nat) (r : FixtureRecord)
    (h : errsOf (processRecord "skip" db idx r).1 = []) :
    ∃ m, resolveModel r.model = some m ∧
      pkExists (processRecord "skip" db idx r).2 m r.pk = true := by
  have hso : (("skip" : String) == "overwrite") = false := rfl
  cases hm : resolveModel r.model with
  | none => simp [processRecord, hm, errsOf] at h
  | some m =>
    refine ⟨m, rfl, ?_⟩
    simp only [processRecord, hm, hso, Bool.false_eq_true, ite_false] at h ⊢
    by_cases hex : pkExists db m r.pk
    · simp [hex]
    · simp only [hex, Bool.false_eq_true, ite_false] at h ⊢
      rcases hc : createEntity db m r.pk (classifyFields db m r.fields).2 with er | db1
      · simp [hc, errsOf] at h
      · rcases ha : applyM2m m r.pk db1 (classifyFields db m r.fields).1 with ⟨db2, e?⟩
        cases e? with
        | none =>
          simp only [hc, ha]
          have h2 := applyM2m_pkExists m r.pk (classifyFields db m r.fields).1 db1 m r.pk
          rw [ha] at h2
          simp only at h2
          rw [h2]
          exact (createEntity_ok_facts hc).1
        | some e =>
          simp [hc, ha, errsOf] at h

theorem processAll_skip_mono (rs : List FixtureRecord) :
    ∀ (idx : Nat) (db : DB) (m' : ModelName) (n : Nat), pkExists db m' n = true →
      pkExists (processAll "skip" idx db rs).2 m' n = true := by
  induction rs with
  | nil => intro idx db m' n h; exact h
  | cons r rest ih =>
    intro idx db m' n h
    obtain ⟨o, db1, ho⟩ : ∃ o db1, processRecord "skip" db idx r = (o, db1) := ⟨_, _, rfl⟩
    have heq : (processAll "skip" idx db (r :: rest)).2 =
        (processAll "skip" (idx + 1) db1 rest).2 := by
      simp [processAll, ho]
    rw [heq]
    refine ih (idx + 1) db1 m' n ?_
    have := processRecord_skip_mono db idx r m' n h
    rwa [ho] at this

theorem processAll_skip_no_errors (rs : List FixtureRecord) :
    ∀ (idx : Nat) (db : DB), (processAll "skip" idx db rs).1.errors = [] →
      ∀ r ∈ rs, ∃ m, resolveModel r.model = some m ∧
        pkExists (processAll "skip" idx db rs).2 m r.pk = true := by
  induction rs with
  | nil => intro idx db _ r hr; simp at hr
  | cons r0 rest ih =>
    intro idx db herr r hr
    obtain ⟨o, db1, ho⟩ : ∃ o db1, processRecord "skip" db idx r0 = (o, db1) := ⟨_, _, rfl⟩
    have hsplit : (processAll "skip" idx db (r0 :: rest)).1.errors =
        errsOf o ++ (processAll "skip" (idx + 1) db1 rest).1.errors := by
      simp [processAll, ho, addDelta]
    rw [hsplit] at herr
    have h0 : errsOf o = [] := by
      cases hco : errsOf o with
      | nil => rfl
      | cons a l => rw [hco] at herr; simp at herr
    have hrest : (processAll "skip" (idx + 1) db1 rest).1.errors = [] := by
      rw [h0] at herr; simpa using herr
    have heq2 : (processAll "skip" idx db (r0 :: rest)).2 =
        (processAll "skip" (idx + 1) db1 rest).2 := by
      simp [processAll, ho]
    rcases List.mem_cons.mp hr with hr0 | hrr
    · subst hr0
      have h0' : errsOf (processRecord "skip" db idx r).1 = [] := by rw [ho]; exact h0
      obtain ⟨m, hm, hp⟩ := processRecord_skip_no_error db idx r h0'
      rw [ho] at hp
      simp only at hp
      refine ⟨m, hm, ?_⟩
      rw [heq2]
      exact processAll_skip_mono rest (idx + 1) db1 m r.pk hp
    · obtain ⟨m, hm, hp⟩ := ih (idx + 1) db1 hrest r hrr
      exact ⟨m, hm, by rw [heq2]; exact hp⟩

theorem processAll_all_dup (rs : List FixtureRecord) :
    ∀ (idx : Nat) (db : DB),
      (∀ r ∈ rs, ∃ m, resolveModel r.model = some m ∧ pkExists db m r.pk = true) →
      (processAll "skip" idx db rs).1 = ⟨0, 0, rs.length, []⟩ ∧
        (processAll "skip" idx db rs).2 = db := by
  induction rs with
  | nil => intro idx db _; exact ⟨rfl, rfl⟩
  | cons r rest ih =>
    intro idx db h
    obtain ⟨m, hm, hex⟩ := h r (by simp)
    have hso : (("skip" : String) == "overwrite") = false := rfl
    have hp : processRecord "skip" db idx r = (.skippedDup, db) := by
      simp [processRecord, hm, hso, hex]
    obtain ⟨h1, h2⟩ := ih (idx + 1) db (fun r' hr' => h r' (by simp [hr']))
    obtain ⟨d, db2, hd⟩ : ∃ d db2, processAll "skip" (idx + 1) db rest = (d, db2) := ⟨_, _, rfl⟩
    have heq : processAll "skip" idx db (r :: rest) = (addDelta .skippedDup d, db2) := by
      simp [processAll, hp, hd]
    rw [hd] at h1 h2
    simp only at h1 h2
    rw [heq, h1, h2]
    constructor
    · simp [addDelta, dCreated, dUpdated, dSkipped, errsOf, Nat.add_comm]
    · rfl

/-- C5 (amended): if a skip-policy import of a fixture reports no errors,
importing the same fixture again under the skip policy yields created = 0,
updated = 0, skipped = total and no errors — every record is a duplicate
skip on the second pass. -/
theorem c5_skip_idempotent_amended (records : List FixtureRecord) (db : DB)
    (h : (runFixture "skip" records db).1.errors = []) :
    (runFixture "skip" records (runFixture "skip" records db).2).1.created = 0 ∧
    (runFixture "skip" records (runFixture "skip" records db).2).1.updated = 0 ∧
    (runFixture "skip" records (runFixture "skip" records db).2).1.skipped = records.length ∧
    (runFixture "skip" records (runFixture "skip" records db).2).1.errors = [] := by
  obtain ⟨d, db1, hd⟩ : ∃ d db1, processAll "skip" 1 db records = (d, db1) := ⟨_, _, rfl⟩
  have herr : (processAll "skip" 1 db records).1.errors = [] := by
    have : (runFixture "skip" records db).1.errors = (processAll "skip" 1 db records).1.errors := by
      simp [runFixture, hd]
    rwa [this] at h
  have hpres := processAll_skip_no_errors records 1 db herr
  have hdb1 : (runFixture "skip" records db).2 = db1 := by simp [runFixture, hd]
  rw [hd] at hpres
  simp only at hpres
  have hdup := processAll_all_dup records 1 db1 (fun r hr => hpres r hr)
  rw [hdb1]
  obtain ⟨hstats, _⟩ := hdup
  obtain ⟨d2, db3, hd2⟩ : ∃ d2 db3, processAll "skip" 1 db1 records = (d2, db3) := ⟨_, _, rfl⟩
  rw [hd2] at hstats
  simp only at hstats
  subst hstats
  simp [runFixture, hd2]

/-- C2 (amended): a record whose entity-type identifier is unrecognized is
counted as one error-skip with its message in the error list, the stored
state is untouched by it, and the subsequent records of the batch are
processed exactly as they would have been — the operation does not fail as
a whole. -/
theorem c2_unknown_model_amended (dh : String) (idx : Nat) (db : DB) (r : FixtureRecord)
    (rest : List FixtureRecord) (h : resolveModel r.model = none) :
    (processAll dh idx db (r :: rest)).2 = (processAll dh (idx + 1) db rest).2 ∧
    (processAll dh idx db (r :: rest)).1.created = (processAll dh (idx + 1) db rest).1.created ∧
    (processAll dh idx db (r :: rest)).1.updated = (processAll dh (idx + 1) db rest).1.updated ∧
    (processAll dh idx db (r :: rest)).1.skipped = (processAll dh (idx + 1) db rest).1.skipped + 1 ∧
    (processAll dh idx db (r :: rest)).1.errors =
      unknownModelMsg idx r.model r.pk :: (processAll dh (idx + 1) db rest).1.errors := by
  have hp : processRecord dh db idx r = (.skippedErr (unknownModelMsg idx r.model r.pk), db) := by
    simp [processRecord, h]
  obtain ⟨d, db2, hd⟩ : ∃ d db2, processAll dh (idx + 1) db rest = (d, db2) := ⟨_, _, rfl⟩
  have heq : processAll dh idx db (r :: rest) =
      (addDelta (.skippedErr (unknownModelMsg idx r.model r.pk)) d, db2) := by
    simp [processAll, hp, hd]
  rw [heq, hd]
  simp [addDelta, dCreated, dUpdated, dSkipped, errsOf]
  omega

theorem getAssoc_setAssoc_self {κ α : Type} [DecidableEq κ]
    (l : List (κ × α)) (k : κ) (a : α) :
    getAssoc (setAssoc l k a) k = some a := by
  unfold setAssoc getAssoc
  split
  · rename_i hany
    induction l with
    | nil => simp at hany
    | cons p rest ih =>
      simp only [List.any_cons, Bool.or_eq_true] at hany
      by_cases hp : p.1 = k
      · simp [List.find?, hp]
      · simp only [List.map_cons, if_neg hp]
        rw [List.find?_cons_of_neg _ (by simp [hp])]
        rcases hany with hh | ht
        · simp [hp] at hh
        · exact ih ht
  · induction l with
    | nil => simp [List.find?]
    | cons p rest ih =>
      rename_i hany
      simp only [List.any_cons, Bool.or_eq_true, not_or] at hany
      simp only [List.cons_append]
      rw [List.find?_cons_of_neg _ (by simpa using hany.1)]
      exact ih (by simpa using hany.2)

theorem getAssoc_setAssoc_ne {κ α : Type} [DecidableEq κ]
    (l : List (κ × α)) (k k' : κ) (a : α) (h : k' ≠ k) :
    getAssoc (setAssoc l k a) k' = getAssoc l k' := by
  unfold setAssoc getAssoc
  split
  · rename_i hany
    clear hany
    induction l with
    | nil => simp [List.find?]
    | cons p rest ih =>
      by_cases hp : p.1 = k
      · simp only [List.map_cons, if_pos hp]
        rw [List.find?_cons_of_neg _ (by simp [Ne.symm h]),
          List.find?_cons_of_neg _ (by simp [hp ▸ Ne.symm h])]
        exact ih
      · simp only [List.map_cons, if_neg hp]
        by_cases hp' : p.1 = k'
        · simp [List.find?, hp']
        · rw [List.find?_cons_of_neg _ (by simp [hp']),
            List.find?_cons_of_neg _ (by simp [hp'])]
          exact ih
  · rename_i hany
    clear hany
    induction l with
    | nil => simp [List.find?, Ne.symm h]
    | cons p rest ih =>
      simp only [List.cons_append]
      by_cases hp' : p.1 = k'
      · simp [List.find?, hp']
      · rw [List.find?_cons_of_neg _ (by simp [hp']),
          List.find?_cons_of_neg _ (by simp [hp'])]
        exact ih

theorem m2mLookup_addRel_self (db : DB) (m : ModelName) (pk : Nat) (f : String)
    (vs : List Nat) : m2mLookup (addRel db m pk f vs) m pk f = vs := by
  unfold m2mLookup addRel
  simp only
  rw [getAssoc_setAssoc_self]
  rfl

theorem m2mLookup_addRel_ne (db : DB) (m : ModelName) (pk : Nat) (f g : String)
    (vs : List Nat) (h : f ≠ g) :
    m2mLookup (addRel db m pk g vs) m pk f = m2mLookup db m pk f := by
  unfold m2mLookup addRel
  simp only
  rw [getAssoc_setAssoc_ne]
  intro hk
  simp only [Prod.mk.injEq] at hk
  exact h hk.2.2

theorem nodup_keys_eq {α β : Type} [DecidableEq α] {l : List (α × β)}
    (hnd : (l.map Prod.fst).Nodup) {a : α} {b c : β}
    (hb : (a, b) ∈ l) (hc : (a, c) ∈ l) : b = c := by
  induction l with
  | nil => simp at hb
  | cons p rest ih =>
    simp only [List.map_cons, List.nodup_cons] at hnd
    rcases List.mem_cons.mp hb with hb0 | hbr
    · rcases List.mem_cons.mp hc with hc0 | hcr
      · rw [← hb0] at hc0
        injection hc0 with h1 h2
        exact h2.symm
      · exfalso
        exact hnd.1 (by rw [← hb0]; exact List.mem_map.mpr ⟨(a, c), hcr, rfl⟩)
    · rcases List.mem_cons.mp hc with hc0 | hcr
      · exfalso
        exact hnd.1 (by rw [← hc0]; exact List.mem_map.mpr ⟨(a, b), hbr, rfl⟩)
      · exact ih hnd.2 hbr hcr

theorem classifyFields_names_sublist (db : DB) (m : ModelName)
    (fields : List (String × FieldValue)) :
    ((classifyFields db m fields).1.map (·.1)).Sublist (fields.map Prod.fst) := by
  induction fields with
  | nil => simp [classifyFields]
  | cons fv rest ih =>
    obtain ⟨f, v⟩ := fv
    simp only [classifyFields, List.map_cons]
    cases hk : fieldKind m f with
    | m2m t => simpa using List.Sublist.cons₂ f ih
    | fk t => exact List.Sublist.cons f ih
    | plain => exact List.Sublist.cons f ih

theorem applyM2m_lookup_untouched (m : ModelName) (pk : Nat)
    (l : List (String × RelTarget × FieldValue)) :
    ∀ (db : DB) (f : String),
      (∀ e ∈ l, e.1 = f → isTruthy e.2.2 = false) →
      m2mLookup (applyM2m m pk db l).1 m pk f = m2mLookup db m pk f := by
  induction l with
  | nil => intro db f _; rfl
  | cons e rest ih =>
    intro db f h
    obtain ⟨g, t0, v⟩ := e
    by_cases hv : isTruthy v
    · have hg : g ≠ f := by
        intro hgf
        have := h (g, t0, v) (by simp) hgf
        rw [this] at hv
        exact absurd hv (by simp)
      cases hs : setM2mField db m pk g t0 v with
      | ok db1 =>
        obtain ⟨vs, hvv, hdb1⟩ := setM2mField_ok_shape hs
        have heq : applyM2m m pk db ((g, t0, v) :: rest) = applyM2m m pk db1 rest := by
          simp [applyM2m, hv, hs]
        rw [heq, ih db1 f (fun e he => h e (by simp [he])), hdb1,
          m2mLookup_addRel_ne db m pk f g _ (Ne.symm hg)]
      | error e =>
        have heq : applyM2m m pk db ((g, t0, v) :: rest) = (db, some e) := by
          simp [applyM2m, hv, hs]
        rw [heq]
    · have heq : applyM2m m pk db ((g, t0, v) :: rest) = applyM2m m pk db rest := by
        simp [applyM2m, hv]
      rw [heq, ih db f (fun e he => h e (by simp [he]))]

theorem applyM2m_lookup_set (m : ModelName) (pk : Nat)
    (l : List (String × RelTarget × FieldValue)) :
    ∀ (db : DB) (f : String) (t : RelTarget) (vs : List Nat),
      (l.map (·.1)).Nodup → (f, t, FieldValue.vList vs) ∈ l → vs ≠ [] →
      (applyM2m m pk db l).2 = none →
      m2mLookup (applyM2m m pk db l).1 m pk f = resolvedSet db t vs := by
  induction l with
  | nil => intro db f t vs _ hmem; simp at hmem
  | cons e rest ih =>
    intro db f t vs hnd hmem hne hok
    obtain ⟨g, t0, v⟩ := e
    simp only [List.map_cons, List.nodup_cons] at hnd
    rcases List.mem_cons.mp hmem with h0 | hrest
    · simp only [Prod.mk.injEq] at h0
      obtain ⟨h1, h2, h3⟩ := h0
      subst h1
      subst h2
      subst h3
      have hv : isTruthy (FieldValue.vList vs) = true := by
        simp [isTruthy, hne]
      have hs : setM2mField db m pk f t (FieldValue.vList vs) =
          .ok (addRel db m pk f (resolvedSet db t vs)) := by
        simp [setM2mField]
      have heq : applyM2m m pk db ((f, t, FieldValue.vList vs) :: rest) =
          applyM2m m pk (addRel db m pk f (resolvedSet db t vs)) rest := by
        simp [applyM2m, hv, hs]
      rw [heq]
      have hnog : ∀ e ∈ rest, e.1 = f → isTruthy e.2.2 = false := by
        intro e he heg
        exfalso
        exact hnd.1 (List.mem_map.mpr ⟨e, he, heg⟩)
      rw [applyM2m_lookup_untouched m pk rest _ f hnog,
        m2mLookup_addRel_self]
    · have hg : g ≠ f := by
        intro hgf
        exact hnd.1 (List.mem_map.mpr ⟨(f, t, FieldValue.vList vs), hrest, hgf.symm⟩)
      by_cases hv : isTruthy v
      · cases hs : setM2mField db m pk g t0 v with
        | ok db1 =>
          obtain ⟨vs0, hvv, hdb1⟩ := setM2mField_ok_shape hs
          have heq : applyM2m m pk db ((g, t0, v) :: rest) = applyM2m m pk db1 rest := by
            simp [applyM2m, hv, hs]
          rw [heq] at hok ⊢
          rw [ih db1 f t vs hnd.2 hrest hne hok, hdb1]
          unfold resolvedSet
          rw [relatedPks_addRel]
        | error e =>
          have heq : applyM2m m pk db ((g, t0, v) :: rest) = (db, some e) := by
            simp [applyM2m, hv, hs]
          rw [heq] at hok
          simp at hok
      · have heq : applyM2m m pk db ((g, t0, v) :: rest) = applyM2m m pk db rest := by
          simp [applyM2m, hv]
        rw [heq] at hok ⊢
        exact ih db f t vs hnd.2 hrest hne hok

theorem m2mLookup_congr_rels {db db' : DB} (h : db'.rels = db.rels)
    (m : ModelName) (pk : Nat) (f : String) :
    m2mLookup db' m pk f = m2mLookup db m pk f := by
  unfold m2mLookup
  rw [h]

theorem classifyFields_m2m_of_mem (db : DB) (m : ModelName)
    (fields : List (String × FieldValue)) :
    ∀ f v t, (f, v) ∈ fields → fieldKind m f = .m2m t →
      (f, t, v) ∈ (classifyFields db m fields).1 := by
  induction fields with
  | nil => intro f v t hmem; simp at hmem
  | cons fv rest ih =>
    intro f v t hmem hk
    obtain ⟨g, w⟩ := fv
    simp only [classifyFields]
    rcases List.mem_cons.mp hmem with h0 | hrest
    · simp only [Prod.mk.injEq] at h0
      obtain ⟨h1, h2⟩ := h0
      subst h1
      subst h2
      rw [hk]
      simp
    · cases hk2 : fieldKind m g with
      | m2m t2 => exact List.mem_cons_of_mem _ (ih f v t hrest hk)
      | fk t2 => exact ih f v t hrest hk
      | plain => exact ih f v t hrest hk

/-- C3: under the overwrite policy, for a record with unique field names,
an empty list in a many-to-many field leaves the stored membership of that
field unchanged on every path, while a non-empty list, when the record
succeeds, replaces the full membership with the resolved set — exactly the
referenced keys present in the target table. -/
theorem c3_overwrite_m2m (db : DB) (idx : Nat) (r : FixtureRecord) (m : ModelName)
    (hm : resolveModel r.model = some m)
    (hnd : (r.fields.map Prod.fst).Nodup) :
    (∀ f t, (f, FieldValue.vList []) ∈ r.fields → fieldKind m f = .m2m t →
      m2mLookup (processRecord "overwrite" db idx r).2 m r.pk f =
        m2mLookup db m r.pk f) ∧
    (∀ f t vs, (f, FieldValue.vList vs) ∈ r.fields → vs ≠ [] →
      fieldKind m f = .m2m t →
      ((processRecord "overwrite" db idx r).1 = .created ∨
        (processRecord "overwrite" db idx r).1 = .updated) →
      ∀ x, x ∈ m2mLookup (processRecord "overwrite" db idx r).2 m r.pk f ↔
        (x ∈ vs ∧ relatedHas (processRecord "overwrite" db idx r).2 t x = true)) := by
  have hov : (("overwrite" : String) == "overwrite") = true := rfl
  have hndm : ((classifyFields db m r.fields).1.map (·.1)).Nodup :=
    (classifyFields_names_sublist db m r.fields).nodup hnd
  constructor
  · intro f t hmem hk
    have hflat : ∀ e ∈ (classifyFields db m r.fields).1, e.1 = f →
        isTruthy e.2.2 = false := by
      intro e he hef
      obtain ⟨hmem', _⟩ := classifyFields_m2m_mem db m r.fields e he
      rw [hef] at hmem'
      have hval : e.2.2 = FieldValue.vList [] := nodup_keys_eq hnd hmem' hmem
      rw [hval]
      rfl
    simp only [processRecord, hm, hov, ite_true]
    by_cases hex : pkExists db m r.pk
    · simp only [hex, ite_true]
      rcases hu : updateEntity db m r.pk (classifyFields db m r.fields).2 with er | db1
      · rfl
      · rcases ha : applyM2m m r.pk db1 (classifyFields db m r.fields).1 with ⟨db2, e?⟩
        have hl : m2mLookup db2 m r.pk f = m2mLookup db m r.pk f := by
          have h1 := applyM2m_lookup_untouched m r.pk (classifyFields db m r.fields).1 db1 f hflat
          rw [ha] at h1
          simp only at h1
          rw [h1]
          exact m2mLookup_congr_rels (updateEntity_ok_rels hu) m r.pk f
        cases e? with
        | none => simp only [ha]; exact hl
        | some e => simp only [ha]; exact hl
    · simp only [hex, Bool.false_eq_true, ite_false]
      rcases hc : createEntity db m r.pk (classifyFields db m r.fields).2 with er | db1
      · rfl
      · rcases ha : applyM2m m r.pk db1 (classifyFields db m r.fields).1 with ⟨db2, e?⟩
        have hl : m2mLookup db2 m r.pk f = m2mLookup db m r.pk f := by
          have h1 := applyM2m_lookup_untouched m r.pk (classifyFields db m r.fields).1 db1 f hflat
          rw [ha] at h1
          simp only at h1
          rw [h1]
          exact m2mLookup_congr_rels (createEntity_ok_facts hc).2.1 m r.pk f
        cases e? with
        | none => simp only [ha]; exact hl
        | some e => simp only [ha]; exact hl
  · intro f t vs hmem hne hk hout x
    have hcmem : (f, t, FieldValue.vList vs) ∈ (classifyFields db m r.fields).1 :=
      classifyFields_m2m_of_mem db m r.fields f (FieldValue.vList vs) t hmem hk
    simp only [processRecord, hm, hov, ite_true] at hout ⊢
    by_cases hex : pkExists db m r.pk
    · simp only [hex, ite_true] at hout ⊢
      rcases hu : updateEntity db m r.pk (classifyFields db m r.fields).2 with er | db1
      · simp only [hu] at hout
        simp at hout
      · simp only [hu] at hout ⊢
        rcases ha : applyM2m m r.pk db1 (classifyFields db m r.fields).1 with ⟨db2, e?⟩
        cases e? with
        | some e =>
          simp only [ha] at hout
          simp at hout
        | none =>
          simp only [ha] at hout ⊢
          have hset := applyM2m_lookup_set m r.pk (classifyFields db m r.fields).1
            db1 f t vs hndm hcmem hne (by rw [ha])
          rw [ha] at hset
          simp only at hset
          rw [hset]
          have hrp : relatedPks db2 t = relatedPks db1 t := by
            have h2 := applyM2m_relatedPks m r.pk (classifyFields db m r.fields).1 db1 t
            rw [ha] at h2
            exact h2
          unfold resolvedSet relatedHas
          rw [hrp]
          simp only [List.mem_filter, List.contains, List.elem_eq_mem,
            decide_eq_true_eq]
          tauto
    · simp only [hex, Bool.false_eq_true, ite_false] at hout ⊢
      rcases hc : createEntity db m r.pk (classifyFields db m r.fields).2 with er | db1
      · simp only [hc] at hout
        simp at hout
      · simp only [hc] at hout ⊢
        rcases ha : applyM2m m r.pk db1 (classifyFields db m r.fields).1 with ⟨db2, e?⟩
        cases e? with
        | some e =>
          simp only [ha] at hout
          simp at hout
        | none =>
          simp only [ha] at hout ⊢
          have hset := applyM2m_lookup_set m r.pk (classifyFields db m r.fields).1
            db1 f t vs hndm hcmem hne (by rw [ha])
          rw [ha] at hset
          simp only at hset
          rw [hset]
          have hrp : relatedPks db2 t = relatedPks db1 t := by
            have h2 := applyM2m_relatedPks m r.pk (classifyFields db m r.fields).1 db1 t
            rw [ha] at h2
            exact h2
          unfold resolvedSet relatedHas
          rw [hrp]
          simp only [List.mem_filter, List.contains, List.elem_eq_mem,
            decide_eq_true_eq]
          tauto

theorem natTruthy_ne_none {o : Option Nat} (h : natTruthy o = true) : o ≠ none := by
  cases o with
  | none => simp [natTruthy] at h
  | some n => simp

theorem buildSS_invariant (st : ConvState) (l : List SSData) :
    ∀ (products : List ((String × String) × Nat)) (ppk spk : Nat)
      (acc : List SoundSourceOut),
      (∀ o ∈ acc, o.bank ≠ none ∨ o.product ≠ none) →
      ∀ o ∈ (buildSoundSources st products ppk spk acc l).2.2.2,
        o.bank ≠ none ∨ o.product ≠ none := by
  induction l with
  | nil => intro products ppk spk acc hacc o ho; exact hacc o ho
  | cons ss rest ih =>
    intro products ppk spk acc hacc o ho
    simp only [buildSoundSources] at ho
    split at ho
    · exact ih _ _ _ _ hacc o ho
    · rename_i hguard
      refine ih _ _ _ _ ?_ o ho
      intro o' ho'
      rcases List.mem_append.mp ho' with hold | hnew
      · exact hacc o' hold
      · simp only [List.mem_singleton] at hnew
        subst hnew
        simp only [Bool.and_eq_true, Bool.not_eq_true', not_and_or,
          Bool.not_eq_false] at hguard
        rcases hguard with hb | hp
        · exact Or.inl (natTruthy_ne_none hb)
        · exact Or.inr (natTruthy_ne_none hp)

/-- C6 (amended): every SoundSource record emitted by the converter has at
least one of its bank or product references set; rows for which neither
resolves are excluded from the output (they are dropped at emission without
a skip-report entry, see the counterexample). -/
theorem c6_soundsource_invariant_amended (files : List CsvFile) :
    ∀ o ∈ (runConverter files).soundsources, o.bank ≠ none ∨ o.product ≠ none := by
  intro o ho
  have : (runConverter files).soundsources =
      (buildSoundSources (resolve_relationships (files.foldl process_csv_file initConvState))
        (resolve_relationships (files.foldl process_csv_file initConvState)).products
        (resolve_relationships (files.foldl process_csv_file initConvState)).product_pk
        (resolve_relationships (files.foldl process_csv_file initConvState)).soundsource_pk
        [] (resolve_relationships (files.foldl process_csv_file initConvState)).all_sound_sources).2.2.2 := rfl
  rw [this] at ho
  exact buildSS_invariant _ _ _ _ _ _ (by intro o' h; simp at h) o ho

theorem processRow_records_skip (fname tag : String) (acc : LoopAcc) (idx : Nat)
    (row : Row) (g : GameData) (hcur : acc.cur = some g)
    (ht : is_game_title_row row = false)
    (hp : parse_sound_source_row row g.title = none)
    (hc : pyStrip row.company ≠ "") :
    (processRow fname tag acc idx row).skipped = acc.skipped ++
      [⟨fname, idx, (pyStrip row.company).take 100,
        "Could not parse as sound source or game title"⟩] := by
  unfold processRow
  rw [ht, hcur]
  simp only [Bool.false_eq_true, ite_false, hp]
  rw [if_pos (by simpa using hc)]

theorem resolve_relationships_skipped (st : ConvState) :
    (resolve_relationships st).skipped_lines = st.skipped_lines := by
  unfold resolve_relationships
  have h1 : ∀ (l : List GameData) (s : ConvState),
      (l.foldl (fun s g =>
        if (s.games.find? (fun p => p.1 == g.title)).isSome then s
        else { s with games := s.games ++ [(g.title, s.game_pk)],
                      game_to_tag := s.game_to_tag ++ [(g.title, g.tags.headD "")],
                      game_pk := s.game_pk + 1 }) s).skipped_lines = s.skipped_lines := by
    intro l
    induction l with
    | nil => intro s; rfl
    | cons g rest ih =>
      intro s
      rw [List.foldl_cons, ih]
      split <;> rfl
  have h2 : ∀ (l : List SSData) (s : ConvState),
      (l.foldl (fun s ss =>
        let s :=
          if optTruthy ss.company then
            let c := ss.company.getD ""
            if (s.companies.find? (fun p => p.1 == c)).isSome then s
            else { s with companies := s.companies ++ [(c, s.company_pk)],
                          company_pk := s.company_pk + 1 }
          else s
        let s :=
          if optTruthy ss.product && optTruthy ss.company then
            let key := (ss.product.getD "", ss.company.getD "")
            if (s.products.find? (fun p => p.1 == key)).isSome then s
            else { s with products := s.products ++ [(key, s.product_pk)],
                          product_pk := s.product_pk + 1 }
          else s
        if optTruthy ss.bank && optTruthy ss.product && optTruthy ss.company then
          let key := (ss.bank.getD "", ss.product.getD "", ss.company.getD "")
          if (s.banks.find? (fun p => p.1 == key)).isSome then s
          else { s with banks := s.banks ++ [(key, s.bank_pk)],
                        bank_pk := s.bank_pk + 1 }
        else s) s).skipped_lines = s.skipped_lines := by
    intro l
    induction l with
    | nil => intro s; rfl
    | cons ss rest ih =>
      intro s
      rw [List.foldl_cons, ih]
      dsimp only []
      repeat' split
      all_goals rfl
  rw [h2, h1]

theorem runConverter_skipped (files : List CsvFile) :
    (runConverter files).skippedLines =
      (files.foldl process_csv_file initConvState).skipped_lines := by
  unfold runConverter
  have : ∀ st : ConvState, (generate_yaml st).skippedLines = st.skipped_lines :=
    fun st => rfl
  rw [this, resolve_relationships_skipped]

theorem record_error_reported (dh : String) (idx : Nat) (db : DB)
    (r : FixtureRecord) (rest : List FixtureRecord)
    (herr : isErrOutcome (processRecord dh db idx r).1 = true) :
    ∃ msg, errsOf (processRecord dh db idx r).1 = [msg] ∧
      msg ∈ (processAll dh idx db (r :: rest)).1.errors := by
  obtain ⟨o, db1, ho⟩ : ∃ o db1, processRecord dh db idx r = (o, db1) := ⟨_, _, rfl⟩
  rw [ho] at herr ⊢
  simp only at herr ⊢
  obtain ⟨d, db2, hd⟩ : ∃ d db2, processAll dh (idx + 1) db1 rest = (d, db2) := ⟨_, _, rfl⟩
  have heq : (processAll dh idx db (r :: rest)).1.errors = errsOf o ++ d.errors := by
    simp [processAll, ho, hd, addDelta]
  rw [heq]
  cases o with
  | skippedErr m => exact ⟨m, rfl, by simp [errsOf]⟩
  | createdThenErr m => exact ⟨m, rfl, by simp [errsOf]⟩
  | updatedThenErr m => exact ⟨m, rfl, by simp [errsOf]⟩
  | created => simp [isErrOutcome] at herr
  | updated => simp [isErrOutcome] at herr
  | skippedDup => simp [isErrOutcome] at herr


/-- C1 witness: the amended sum equality evaluated on a concrete clean
fixture. -/
theorem c1_stats_sum_witness :
    (runFixture "skip" [c1GoodRec] emptyDB).1.created +
      (runFixture "skip" [c1GoodRec] emptyDB).1.updated +
      (runFixture "skip" [c1GoodRec] emptyDB).1.skipped =
      (runFixture "skip" [c1GoodRec] emptyDB).1.total :=
  c1_stats_sum_amended "skip" [c1GoodRec] emptyDB (by decide)

/-- C2 witness: the amended continuation behaviour evaluated on a concrete
two-record fixture headed by an unknown model. -/
theorem c2_unknown_model_witness :
    (processAll "skip" 1 emptyDB (c2UnknownRec :: [c2CompanyRec])).2 =
      (processAll "skip" 2 emptyDB [c2CompanyRec]).2 ∧
    (processAll "skip" 1 emptyDB (c2UnknownRec :: [c2CompanyRec])).1.created =
      (processAll "skip" 2 emptyDB [c2CompanyRec]).1.created ∧
    (processAll "skip" 1 emptyDB (c2UnknownRec :: [c2CompanyRec])).1.updated =
      (processAll "skip" 2 emptyDB [c2CompanyRec]).1.updated ∧
    (processAll "skip" 1 emptyDB (c2UnknownRec :: [c2CompanyRec])).1.skipped =
      (processAll "skip" 2 emptyDB [c2CompanyRec]).1.skipped + 1 ∧
    (processAll "skip" 1 emptyDB (c2UnknownRec :: [c2CompanyRec])).1.errors =
      unknownModelMsg 1 c2UnknownRec.model c2UnknownRec.pk ::
        (processAll "skip" 2 emptyDB [c2CompanyRec]).1.errors :=
  c2_unknown_model_amended "skip" 1 emptyDB c2UnknownRec [c2CompanyRec] (by decide)

/-- C3 witness: the overwrite many-to-many behaviour evaluated on a concrete
record over a concrete store. -/
theorem c3_overwrite_m2m_witness :
    (∀ f t, (f, FieldValue.vList []) ∈ c3GameRec.fields →
      fieldKind ModelName.game f = .m2m t →
      m2mLookup (processRecord "overwrite" c3DB 1 c3GameRec).2 ModelName.game
        c3GameRec.pk f = m2mLookup c3DB ModelName.game c3GameRec.pk f) ∧
    (∀ f t vs, (f, FieldValue.vList vs) ∈ c3GameRec.fields → vs ≠ [] →
      fieldKind ModelName.game f = .m2m t →
      ((processRecord "overwrite" c3DB 1 c3GameRec).1 = .created ∨
        (processRecord "overwrite" c3DB 1 c3GameRec).1 = .updated) →
      ∀ x, x ∈ m2mLookup (processRecord "overwrite" c3DB 1 c3GameRec).2
          ModelName.game c3GameRec.pk f ↔
        (x ∈ vs ∧ relatedHas (processRecord "overwrite" c3DB 1 c3GameRec).2 t x = true)) :=
  c3_overwrite_m2m c3DB 1 c3GameRec ModelName.game (by decide) (by decide)

/-- C4 witness: the all-or-nothing alternative evaluated on a concrete
record whose creation violates a unique constraint. -/
theorem c4_skip_create_atomic_witness :
    ((processRecord "skip" c4DB 1 c4CompanyRec).1 = .created ∧
      pkExists (processRecord "skip" c4DB 1 c4CompanyRec).2 ModelName.company
        c4CompanyRec.pk = true) ∨
    (isErrOutcome (processRecord "skip" c4DB 1 c4CompanyRec).1 = true ∧
      (processRecord "skip" c4DB 1 c4CompanyRec).2 = c4DB) :=
  c4_skip_create_atomic c4DB 1 c4CompanyRec ModelName.company (by decide) (by decide)

/-- C5 witness: the amended idempotence evaluated on a concrete
dependency-ordered fixture whose first pass is error-free. -/
theorem c5_skip_idempotent_witness :
    (runFixture "skip" c5GoodFixture (runFixture "skip" c5GoodFixture emptyDB).2).1.created = 0 ∧
    (runFixture "skip" c5GoodFixture (runFixture "skip" c5GoodFixture emptyDB).2).1.updated = 0 ∧
    (runFixture "skip" c5GoodFixture (runFixture "skip" c5GoodFixture emptyDB).2).1.skipped =
      c5GoodFixture.length ∧
    (runFixture "skip" c5GoodFixture (runFixture "skip" c5GoodFixture emptyDB).2).1.errors = [] :=
  c5_skip_idempotent_amended c5GoodFixture emptyDB (by decide)

/-- C6 witness: the invariant evaluated on a concrete emitted sound
source. -/
theorem c6_soundsource_invariant_witness :
    c6WitnessOut.bank ≠ none ∨ c6WitnessOut.product ≠ none :=
  c6_soundsource_invariant_amended [c6WitnessFile] c6WitnessOut (by decide)


/-- C9 (amended): the rejections that the program records are exactly
these — (1) during the scan, a row under an active game context whose
primary column is non-blank and which parses neither as a game title nor
as a sound source is appended to the skip report with file, row index,
100-character-truncated content and reason; (2) the skip report collected
by the scan passes unchanged into the final output; (3) every importer
record whose outcome is an error contributes exactly one message, and that
message appears in the batch's returned error list.  (Rows outside a game
context or with a blank primary column, and sound sources dropped at
emission, are silent — see the counterexample.) -/
theorem c9_reporting_amended :
    (∀ (fname tag : String) (acc : LoopAcc) (idx : Nat) (row : Row)
        (g : GameData), acc.cur = some g →
      is_game_title_row row = false →
      parse_sound_source_row row g.title = none →
      pyStrip row.company ≠ "" →
      (processRow fname tag acc idx row).skipped = acc.skipped ++
        [⟨fname, idx, (pyStrip row.company).take 100,
          "Could not parse as sound source or game title"⟩]) ∧
    (∀ files : List CsvFile, (runConverter files).skippedLines =
      (files.foldl process_csv_file initConvState).skipped_lines) ∧
    (∀ (dh : String) (idx : Nat) (db : DB) (r : FixtureRecord)
        (rest : List FixtureRecord),
      isErrOutcome (processRecord dh db idx r).1 = true →
      ∃ msg, errsOf (processRecord dh db idx r).1 = [msg] ∧
        msg ∈ (processAll dh idx db (r :: rest)).1.errors) :=
  ⟨fun fname tag acc idx row g h1 h2 h3 h4 =>
      processRow_records_skip fname tag acc idx row g h1 h2 h3 h4,
    runConverter_skipped,
    fun dh idx db r rest h => record_error_reported dh idx db r rest h⟩

/-- C9 witness: a NOTES header under an active game context lands in the
skip report, and a record with an unresolvable model contributes its error
message. -/
theorem c9_reporting_witness :
    (processRow "t.csv" "Tag" c9Acc 3 c9NotesRow).skipped = c9Acc.skipped ++
      [⟨"t.csv", 3, (pyStrip c9NotesRow.company).take 100,
        "Could not parse as sound source or game title"⟩] ∧
    ∃ msg, errsOf (processRecord "skip" emptyDB 9 c9BadRec).1 = [msg] ∧
      msg ∈ (processAll "skip" 9 emptyDB (c9BadRec :: [])).1.errors :=
  ⟨c9_reporting_amended.1 "t.csv" "Tag" c9Acc 3 c9NotesRow c9GameData rfl
      (by decide) (by decide) (by decide),
    c9_reporting_amended.2.2 "skip" 9 emptyDB c9BadRec [] (by decide)⟩

end VGM
